import Mathlib

/-!
# Range wrapping kernels of `volk_32f_s32f_s32f_mod_range_32f.h`

A shallow embedding of the six kernels of the header
(`_generic`, `_u_sse2`, `_a_sse2`, `_u_sse`, `_a_sse`, `_u_avx`).

* A `float` is an exact rational: rounding is not modelled, and a division by a
  zero `distance` follows the convention `x / 0 = 0` (the kernels are meant for
  `upper_bound > lower_bound`).
* The integer steps, the truncating conversion and `count + 1`, are evaluated in
  an `IntModel`: `IntModel.int32` is the signed 32 bit `int` of the machine, with
  the range of the conversion and the wrap of the sum modulo `2^32`;
  `IntModel.exact` is exact arithmetic, where `int` holds every integer.
* A buffer is a map from element offsets to samples; a kernel takes the
  output buffer as it is before the call and returns it as it is after.
* A vector register is a map from lanes to samples, a comparison result is a
  map from lanes to booleans.
-/

namespace Volk

/-! ## Scalars -/

/-- Smallest value of `signed int`. -/
def INT_MIN : Int := -2147483648

/-- Largest value of `signed int`. -/
def INT_MAX : Int := 2147483647

/-- Truncation toward zero of an exact value. -/
def trunc (q : ℚ) : Int := if 0 ≤ q then ⌊q⌋ else ⌈q⌉

/-- The truncating conversion of a `float` to a signed 32 bit integer, as the
machine does it for the cast `(int)x` (`cvttss2si`) and for the lanes of
`_mm_cvttps_epi32`, `_mm256_cvttps_epi32` and `_mm_cvttps_pi32`: the value
truncated toward zero when that fits, and the x86 "integer indefinite" value
`0x80000000` when it does not (C leaves the cast undefined there). -/
def cvtt_i32 (q : ℚ) : Int :=
  if INT_MIN ≤ trunc q ∧ trunc q ≤ INT_MAX then trunc q else INT_MIN

/-- Addition of two `signed int`, wrapping modulo `2^32`. -/
def add_i32 (a b : Int) : Int := (a + b + 2147483648) % 4294967296 - 2147483648

/-- The conversion of a 32 bit integer to `float` (exact here). -/
def cvt_f32 (z : Int) : ℚ := (z : ℚ)

/-- How the integer steps of the kernels are evaluated. -/
inductive IntModel where
  /-- Exact arithmetic: `int` holds every integer. -/
  | exact
  /-- The machine: `int` is a signed 32 bit integer. -/
  | int32
  deriving DecidableEq

/-- The truncating conversion `(int)x` of a `float`, also the one of a lane of
`_mm_cvttps_epi32`, `_mm256_cvttps_epi32` and `_mm_cvttps_pi32`. -/
def cvtt (m : IntModel) (q : ℚ) : Int :=
  match m with
  | IntModel.exact => trunc q
  | IntModel.int32 => cvtt_i32 q

/-- The sum `a + b` of two `int`. -/
def add_int (m : IntModel) (a b : Int) : Int :=
  match m with
  | IntModel.exact => a + b
  | IntModel.int32 => add_i32 a b

/-- The body shared by the loop of the generic kernel and by the tail loops of
the vector kernels, for one sample `val`; `dist` is the local
`upper_bound - lower_bound` of the kernel. -/
def scalar_body (m : IntModel) (lower_bound upper_bound dist val : ℚ) : ℚ :=
  if val < lower_bound then
    let excess := lower_bound - val
    let count := cvtt m (excess / dist)
    val + cvt_f32 (add_int m count 1) * dist
  else if val > upper_bound then
    let excess := val - upper_bound
    let count := cvtt m (excess / dist)
    val - cvt_f32 (add_int m count 1) * dist
  else
    val

/-! ## Memory and loops -/

/-- A buffer of samples, addressed by the element offset from its base pointer. -/
abbrev Buffer := Nat → ℚ

/-- The store `p[0] = x`. -/
def store (mem : Buffer) (p : Nat) (x : ℚ) : Buffer :=
  fun j => if j = p then x else mem j

/-- The loop `for (counter = start; ; counter++) s = body counter s`, run for `n`
iterations from `counter = start`. -/
def forLoop {σ : Type} (body : Nat → σ → σ) : Nat → Nat → σ → σ
  | _, 0, s => s
  | counter, n + 1, s => forLoop body (counter + 1) n (body counter s)

/-- The tail loop `for (counter = first; counter < num_points; counter++)` of the
vector kernels. -/
def tail_loop (m : IntModel) (outputVector inputVector : Buffer)
    (lower_bound upper_bound dist : ℚ) (first num_points : Nat) : Buffer :=
  forLoop
    (fun counter out =>
      store out counter (scalar_body m lower_bound upper_bound dist (inputVector counter)))
    first (num_points - first) outputVector

/-! ## Vector registers -/

/-- A register of `n` lanes. -/
abbrev Vec (n : Nat) := Fin n → ℚ

/-- A comparison result: every lane all ones (`true`) or all zeros (`false`). -/
abbrev Mask (n : Nat) := Fin n → Bool

/-- A register of `n` lanes of 32 bit integers. -/
abbrev IVec (n : Nat) := Fin n → Int

/-- Broadcast of one value to all lanes. -/
def vset1 {n : Nat} (x : ℚ) : Vec n := fun _ => x

/-- Load of `n` consecutive samples from offset `p`. -/
def vload {n : Nat} (mem : Buffer) (p : Nat) : Vec n := fun i => mem (p + i.val)

/-- Store of the `n` lanes to the consecutive offsets from `p`. -/
def vstore {n : Nat} (mem : Buffer) (p : Nat) (v : Vec n) : Buffer :=
  fun j => if h : p ≤ j ∧ j - p < n then v ⟨j - p, h.2⟩ else mem j

/-- Lane-wise less-than. -/
def vcmplt {n : Nat} (a b : Vec n) : Mask n := fun i => decide (a i < b i)

/-- Lane-wise greater-than. -/
def vcmpgt {n : Nat} (a b : Vec n) : Mask n := fun i => decide (a i > b i)

/-- Lane-wise subtraction. -/
def vsub {n : Nat} (a b : Vec n) : Vec n := fun i => a i - b i

/-- Lane-wise addition. -/
def vadd {n : Nat} (a b : Vec n) : Vec n := fun i => a i + b i

/-- Lane-wise multiplication. -/
def vmul {n : Nat} (a b : Vec n) : Vec n := fun i => a i * b i

/-- Lane-wise division. -/
def vdiv {n : Nat} (a b : Vec n) : Vec n := fun i => a i / b i

/-- Bitwise AND of a register with a comparison result: the lane where the mask
is all ones, `+0.0` where it is all zeros. -/
def vand {n : Nat} (a : Vec n) (m : Mask n) : Vec n := fun i => if m i then a i else 0

/-- Bitwise OR of two lanes. The all-zero pattern `+0.0` is neutral. The OR of two
non-zero bit patterns is not a function of the two values as rationals: it is
left to `bits_or`. -/
def lane_or (bits_or : ℚ → ℚ → ℚ) (a b : ℚ) : ℚ :=
  if a = 0 then b else if b = 0 then a else bits_or a b

/-- Bitwise OR of two registers. -/
def vor {n : Nat} (bits_or : ℚ → ℚ → ℚ) (a b : Vec n) : Vec n :=
  fun i => lane_or bits_or (a i) (b i)

/-- Lane-wise truncating conversion to 32 bit integers. -/
def vcvtt {n : Nat} (m : IntModel) (a : Vec n) : IVec n := fun i => cvtt m (a i)

/-- Lane-wise conversion of 32 bit integers to `float`. -/
def vcvt {n : Nat} (a : IVec n) : Vec n := fun i => cvt_f32 (a i)

/-! ## Intrinsics used by the kernels -/

/-- Intrinsic `_mm_set_ps1`: broadcast to the four lanes. -/
def _mm_set_ps1 (x : ℚ) : Vec 4 := vset1 x

/-- Intrinsic `_mm_setzero_ps`: four lanes of `+0.0`. -/
def _mm_setzero_ps : Vec 4 := vset1 0

/-- Intrinsic `_mm_load_ps`: load of four samples. -/
def _mm_load_ps (mem : Buffer) (p : Nat) : Vec 4 := vload mem p

/-- Intrinsic `_mm_store_ps`: store of four samples. -/
def _mm_store_ps (mem : Buffer) (p : Nat) (v : Vec 4) : Buffer := vstore mem p v

/-- Intrinsic `_mm_cmplt_ps`: lane-wise `a < b`. -/
def _mm_cmplt_ps (a b : Vec 4) : Mask 4 := vcmplt a b

/-- Intrinsic `_mm_cmpgt_ps`: lane-wise `a > b`. -/
def _mm_cmpgt_ps (a b : Vec 4) : Mask 4 := vcmpgt a b

/-- Intrinsic `_mm_sub_ps`. -/
def _mm_sub_ps (a b : Vec 4) : Vec 4 := vsub a b

/-- Intrinsic `_mm_add_ps`. -/
def _mm_add_ps (a b : Vec 4) : Vec 4 := vadd a b

/-- Intrinsic `_mm_mul_ps`. -/
def _mm_mul_ps (a b : Vec 4) : Vec 4 := vmul a b

/-- Intrinsic `_mm_div_ps`. -/
def _mm_div_ps (a b : Vec 4) : Vec 4 := vdiv a b

/-- Intrinsic `_mm_and_ps` with a comparison result as second operand. -/
def _mm_and_ps (a : Vec 4) (m : Mask 4) : Vec 4 := vand a m

/-- Intrinsic `_mm_or_ps`. -/
def _mm_or_ps (bits_or : ℚ → ℚ → ℚ) (a b : Vec 4) : Vec 4 := vor bits_or a b

/-- Intrinsic `_mm_cvttps_epi32`: four truncating conversions. -/
def _mm_cvttps_epi32 (m : IntModel) (a : Vec 4) : IVec 4 := vcvtt m a

/-- Intrinsic `_mm_cvtepi32_ps`: four conversions back to `float`. -/
def _mm_cvtepi32_ps (a : IVec 4) : Vec 4 := vcvt a

/-- `_mm_movehl_ps a b`: the two high lanes of `b` moved to the two low lanes,
the two high lanes of `a` kept. -/
def _mm_movehl_ps (a b : Vec 4) : Vec 4 := ![b 2, b 3, a 2, a 3]

/-- Intrinsic `_mm_cvttps_pi32`: truncating conversion of the two low lanes. -/
def _mm_cvttps_pi32 (m : IntModel) (a : Vec 4) : IVec 2 := ![cvtt m (a 0), cvtt m (a 1)]

/-- `_mm_cvtpi32x2_ps a b`: the two integers of `a` then the two of `b`, as
`float`. -/
def _mm_cvtpi32x2_ps (a b : IVec 2) : Vec 4 :=
  ![cvt_f32 (a 0), cvt_f32 (a 1), cvt_f32 (b 0), cvt_f32 (b 1)]

/-- The two comparison predicates the AVX kernel passes to `_mm256_cmp_ps`. -/
inductive CmpPredicate where
  /-- Immediate `0x11`: less than, ordered, non-signalling. -/
  | LT_OQ
  /-- Immediate `0x1e`: greater than, ordered, non-signalling. -/
  | GT_OQ
  deriving DecidableEq

/-- Intrinsic `_mm256_set1_ps`: broadcast to the eight lanes. -/
def _mm256_set1_ps (x : ℚ) : Vec 8 := vset1 x

/-- Intrinsic `_mm256_loadu_ps`: load of eight samples. -/
def _mm256_loadu_ps (mem : Buffer) (p : Nat) : Vec 8 := vload mem p

/-- Intrinsic `_mm256_storeu_ps`: store of eight samples. -/
def _mm256_storeu_ps (mem : Buffer) (p : Nat) (v : Vec 8) : Buffer := vstore mem p v

/-- `_mm256_cmp_ps a b imm8`. -/
def _mm256_cmp_ps (a b : Vec 8) : CmpPredicate → Mask 8
  | CmpPredicate.LT_OQ => vcmplt a b
  | CmpPredicate.GT_OQ => vcmpgt a b

/-- Intrinsic `_mm256_sub_ps`. -/
def _mm256_sub_ps (a b : Vec 8) : Vec 8 := vsub a b

/-- Intrinsic `_mm256_add_ps`. -/
def _mm256_add_ps (a b : Vec 8) : Vec 8 := vadd a b

/-- Intrinsic `_mm256_mul_ps`. -/
def _mm256_mul_ps (a b : Vec 8) : Vec 8 := vmul a b

/-- Intrinsic `_mm_mul256_ps`, as the AVX kernel spells its inner product: taken to be
the lane-wise product. -/
def _mm_mul256_ps (a b : Vec 8) : Vec 8 := vmul a b

/-- Intrinsic `_mm256_div_ps`. -/
def _mm256_div_ps (a b : Vec 8) : Vec 8 := vdiv a b

/-- Intrinsic `_mm256_and_ps` with a comparison result as second operand. -/
def _mm256_and_ps (a : Vec 8) (m : Mask 8) : Vec 8 := vand a m

/-- Intrinsic `_mm256_or_ps`. -/
def _mm256_or_ps (bits_or : ℚ → ℚ → ℚ) (a b : Vec 8) : Vec 8 := vor bits_or a b

/-- Intrinsic `_mm256_cvttps_epi32`: eight truncating conversions. -/
def _mm256_cvttps_epi32 (m : IntModel) (a : Vec 8) : IVec 8 := vcvtt m a

/-- Intrinsic `_mm256_cvtepi32_ps`: eight conversions back to `float`. -/
def _mm256_cvtepi32_ps (a : IVec 8) : Vec 8 := vcvt a

/-! ## The kernels -/

/-- The loop-local registers of one iteration of a vector loop, each as it is
when the iteration stores its result: `excess` is kept twice, as the distance
out of bounds (before the division) and as the count of widths (after "plus
1"). -/
structure Iteration (n : Nat) where
  /-- The register `input`. -/
  input : Vec n
  /-- The register `is_smaller`. -/
  is_smaller : Mask n
  /-- The register `is_bigger`. -/
  is_bigger : Mask n
  /-- The register `excess` after the OR of the two masked differences. -/
  excess : Vec n
  /-- The register `excess` after "round down" and "plus 1". -/
  widths : Vec n
  /-- The register `adj` after "get the sign right". -/
  adj : Vec n
  /-- The register `output`. -/
  output : Vec n

/-- The local `quarter_points` of the SSE2 and SSE kernels: the number of
iterations of their vector loop. -/
def quarter_points (num_points : Nat) : Nat := num_points / 4

/-- The local `eight_points` of the AVX kernel: the number of iterations of its
vector loop. -/
def eight_points (num_points : Nat) : Nat := num_points / 8

/-- The generic kernel. The loop variable `inPtr` is the offset from
`inputVector`, `outPtr` the offset from `outputVector`. -/
def volk_32f_s32f_s32f_mod_range_32f_generic (m : IntModel)
    (outputVector inputVector : Buffer) (lower_bound upper_bound : ℚ) (num_points : Nat) :
    Buffer :=
  let distance := upper_bound - lower_bound
  (forLoop
    (fun inPtr (s : Nat × Buffer) =>
      let outPtr := s.1
      let val := inputVector inPtr
      (outPtr + 1, store s.2 outPtr (scalar_body m lower_bound upper_bound distance val)))
    0 num_points (0, outputVector)).2

/-- One iteration of the vector loop of `_u_sse2` on the loaded register
`input`; `lower`, `upper` and `distance` are the broadcast registers. -/
def u_sse2_iteration (m : IntModel) (bits_or : ℚ → ℚ → ℚ)
    (lower upper distance input : Vec 4) : Iteration 4 :=
  -- calculate mask: input < lower, input > upper
  let is_smaller := _mm_cmplt_ps input lower
  let is_bigger := _mm_cmpgt_ps input upper
  -- find out how far we are out-of-bound
  let excess := _mm_and_ps (_mm_sub_ps lower input) is_smaller
  let excess := _mm_or_ps bits_or (_mm_and_ps (_mm_sub_ps input upper) is_bigger) excess
  -- how many do we have to add?
  let quotient := _mm_div_ps excess distance
  -- round down
  let rounded := _mm_cvtepi32_ps (_mm_cvttps_epi32 m quotient)
  -- plus 1
  let adj := _mm_set_ps1 1
  let widths := _mm_add_ps rounded adj
  -- get the sign right
  let adj := _mm_and_ps adj is_smaller
  let adj := _mm_or_ps bits_or (_mm_and_ps (_mm_set_ps1 (-1)) is_bigger) adj
  -- scale by distance, sign
  let scaled := _mm_mul_ps (_mm_mul_ps widths adj) distance
  let output := _mm_add_ps input scaled
  { input := input, is_smaller := is_smaller, is_bigger := is_bigger, excess := excess,
    widths := widths, adj := adj, output := output }

/-- The unaligned SSE2 kernel. -/
def volk_32f_s32f_s32f_mod_range_32f_u_sse2 (m : IntModel) (bits_or : ℚ → ℚ → ℚ)
    (outputVector inputVector : Buffer) (lower_bound upper_bound : ℚ) (num_points : Nat) :
    Buffer :=
  let lower := _mm_set_ps1 lower_bound
  let upper := _mm_set_ps1 upper_bound
  let distance := _mm_sub_ps upper lower
  let dist := upper_bound - lower_bound
  let quarter_points := quarter_points num_points
  let s := forLoop
    (fun _ (s : Nat × Nat × Buffer) =>
      let inPtr := s.1
      let outPtr := s.2.1
      let input := _mm_load_ps inputVector inPtr
      let output := (u_sse2_iteration m bits_or lower upper distance input).output
      (inPtr + 4, outPtr + 4, _mm_store_ps s.2.2 outPtr output))
    0 quarter_points (0, 0, outputVector)
  tail_loop m s.2.2 inputVector lower_bound upper_bound dist (quarter_points * 4) num_points

/-- One iteration of the vector loop of `_a_sse2`. -/
def a_sse2_iteration (m : IntModel) (bits_or : ℚ → ℚ → ℚ)
    (lower upper distance input : Vec 4) : Iteration 4 :=
  let is_smaller := _mm_cmplt_ps input lower
  let is_bigger := _mm_cmpgt_ps input upper
  let excess := _mm_and_ps (_mm_sub_ps lower input) is_smaller
  let excess := _mm_or_ps bits_or (_mm_and_ps (_mm_sub_ps input upper) is_bigger) excess
  let quotient := _mm_div_ps excess distance
  let rounded := _mm_cvtepi32_ps (_mm_cvttps_epi32 m quotient)
  let adj := _mm_set_ps1 1
  let widths := _mm_add_ps rounded adj
  let adj := _mm_and_ps adj is_smaller
  let adj := _mm_or_ps bits_or (_mm_and_ps (_mm_set_ps1 (-1)) is_bigger) adj
  let scaled := _mm_mul_ps (_mm_mul_ps widths adj) distance
  let output := _mm_add_ps input scaled
  { input := input, is_smaller := is_smaller, is_bigger := is_bigger, excess := excess,
    widths := widths, adj := adj, output := output }

/-- The aligned SSE2 kernel; `dist` is declared after the vector loop. -/
def volk_32f_s32f_s32f_mod_range_32f_a_sse2 (m : IntModel) (bits_or : ℚ → ℚ → ℚ)
    (outputVector inputVector : Buffer) (lower_bound upper_bound : ℚ) (num_points : Nat) :
    Buffer :=
  let lower := _mm_set_ps1 lower_bound
  let upper := _mm_set_ps1 upper_bound
  let distance := _mm_sub_ps upper lower
  let quarter_points := quarter_points num_points
  let s := forLoop
    (fun _ (s : Nat × Nat × Buffer) =>
      let inPtr := s.1
      let outPtr := s.2.1
      let input := _mm_load_ps inputVector inPtr
      let output := (a_sse2_iteration m bits_or lower upper distance input).output
      (inPtr + 4, outPtr + 4, _mm_store_ps s.2.2 outPtr output))
    0 quarter_points (0, 0, outputVector)
  let dist := upper_bound - lower_bound
  tail_loop m s.2.2 inputVector lower_bound upper_bound dist (quarter_points * 4) num_points

/-- One iteration of the vector loop of `_u_sse`: the truncation goes through
the two halves `lo` and `hi`, with `adj` as temporary. -/
def u_sse_iteration (m : IntModel) (bits_or : ℚ → ℚ → ℚ)
    (lower upper distance input : Vec 4) : Iteration 4 :=
  let is_smaller := _mm_cmplt_ps input lower
  let is_bigger := _mm_cmpgt_ps input upper
  let excess := _mm_and_ps (_mm_sub_ps lower input) is_smaller
  let excess := _mm_or_ps bits_or (_mm_and_ps (_mm_sub_ps input upper) is_bigger) excess
  let quotient := _mm_div_ps excess distance
  -- round down, adj as temp variable
  let adj := _mm_setzero_ps
  let adj := _mm_movehl_ps adj quotient
  let lo := _mm_cvttps_pi32 m quotient
  let hi := _mm_cvttps_pi32 m adj
  let rounded := _mm_cvtpi32x2_ps lo hi
  -- plus 1
  let adj := _mm_set_ps1 1
  let widths := _mm_add_ps rounded adj
  -- get the sign right
  let adj := _mm_and_ps adj is_smaller
  let adj := _mm_or_ps bits_or (_mm_and_ps (_mm_set_ps1 (-1)) is_bigger) adj
  -- scale by distance, sign
  let scaled := _mm_mul_ps (_mm_mul_ps widths adj) distance
  let output := _mm_add_ps input scaled
  { input := input, is_smaller := is_smaller, is_bigger := is_bigger, excess := excess,
    widths := widths, adj := adj, output := output }

/-- The unaligned SSE kernel. -/
def volk_32f_s32f_s32f_mod_range_32f_u_sse (m : IntModel) (bits_or : ℚ → ℚ → ℚ)
    (outputVector inputVector : Buffer) (lower_bound upper_bound : ℚ) (num_points : Nat) :
    Buffer :=
  let lower := _mm_set_ps1 lower_bound
  let upper := _mm_set_ps1 upper_bound
  let distance := _mm_sub_ps upper lower
  let dist := upper_bound - lower_bound
  let quarter_points := quarter_points num_points
  let s := forLoop
    (fun _ (s : Nat × Nat × Buffer) =>
      let inPtr := s.1
      let outPtr := s.2.1
      let input := _mm_load_ps inputVector inPtr
      let output := (u_sse_iteration m bits_or lower upper distance input).output
      (inPtr + 4, outPtr + 4, _mm_store_ps s.2.2 outPtr output))
    0 quarter_points (0, 0, outputVector)
  tail_loop m s.2.2 inputVector lower_bound upper_bound dist (quarter_points * 4) num_points

/-- One iteration of the vector loop of `_a_sse`. -/
def a_sse_iteration (m : IntModel) (bits_or : ℚ → ℚ → ℚ)
    (lower upper distance input : Vec 4) : Iteration 4 :=
  let is_smaller := _mm_cmplt_ps input lower
  let is_bigger := _mm_cmpgt_ps input upper
  let excess := _mm_and_ps (_mm_sub_ps lower input) is_smaller
  let excess := _mm_or_ps bits_or (_mm_and_ps (_mm_sub_ps input upper) is_bigger) excess
  let quotient := _mm_div_ps excess distance
  let adj := _mm_setzero_ps
  let adj := _mm_movehl_ps adj quotient
  let lo := _mm_cvttps_pi32 m quotient
  let hi := _mm_cvttps_pi32 m adj
  let rounded := _mm_cvtpi32x2_ps lo hi
  let adj := _mm_set_ps1 1
  let widths := _mm_add_ps rounded adj
  let adj := _mm_and_ps adj is_smaller
  let adj := _mm_or_ps bits_or (_mm_and_ps (_mm_set_ps1 (-1)) is_bigger) adj
  let scaled := _mm_mul_ps (_mm_mul_ps widths adj) distance
  let output := _mm_add_ps input scaled
  { input := input, is_smaller := is_smaller, is_bigger := is_bigger, excess := excess,
    widths := widths, adj := adj, output := output }

/-- The aligned SSE kernel; `dist` is declared after the vector loop. -/
def volk_32f_s32f_s32f_mod_range_32f_a_sse (m : IntModel) (bits_or : ℚ → ℚ → ℚ)
    (outputVector inputVector : Buffer) (lower_bound upper_bound : ℚ) (num_points : Nat) :
    Buffer :=
  let lower := _mm_set_ps1 lower_bound
  let upper := _mm_set_ps1 upper_bound
  let distance := _mm_sub_ps upper lower
  let quarter_points := quarter_points num_points
  let s := forLoop
    (fun _ (s : Nat × Nat × Buffer) =>
      let inPtr := s.1
      let outPtr := s.2.1
      let input := _mm_load_ps inputVector inPtr
      let output := (a_sse_iteration m bits_or lower upper distance input).output
      (inPtr + 4, outPtr + 4, _mm_store_ps s.2.2 outPtr output))
    0 quarter_points (0, 0, outputVector)
  let dist := upper_bound - lower_bound
  tail_loop m s.2.2 inputVector lower_bound upper_bound dist (quarter_points * 4) num_points

/-- One iteration of the vector loop of `_u_avx`. The source assigns
`is_smaller` twice (first `input < lower`, then `input > upper`) and never
assigns `is_bigger`: `is_bigger0` is what the unassigned register holds, taken
lane by lane as all ones or all zeros. -/
def u_avx_iteration (m : IntModel) (bits_or : ℚ → ℚ → ℚ) (is_bigger0 : Mask 8)
    (lower upper distance input : Vec 8) : Iteration 8 :=
  let is_bigger := is_bigger0
  -- calculate mask: input < lower, input > upper
  let is_smaller := _mm256_cmp_ps input lower CmpPredicate.LT_OQ
  let is_smaller := _mm256_cmp_ps input upper CmpPredicate.GT_OQ
  -- find out how far we are out-of-bound
  let excess := _mm256_and_ps (_mm256_sub_ps lower input) is_smaller
  let excess :=
    _mm256_or_ps bits_or (_mm256_and_ps (_mm256_sub_ps input upper) is_bigger) excess
  -- how many do we have to add?
  let quotient := _mm256_div_ps excess distance
  -- round down
  let rounded := _mm256_cvtepi32_ps (_mm256_cvttps_epi32 m quotient)
  -- plus 1
  let adj := _mm256_set1_ps 1
  let widths := _mm256_add_ps rounded adj
  -- get the sign right
  let adj := _mm256_and_ps adj is_smaller
  let adj := _mm256_or_ps bits_or (_mm256_and_ps (_mm256_set1_ps (-1)) is_bigger) adj
  -- scale by distance, sign
  let scaled := _mm256_mul_ps (_mm_mul256_ps widths adj) distance
  let output := _mm256_add_ps input scaled
  { input := input, is_smaller := is_smaller, is_bigger := is_bigger, excess := excess,
    widths := widths, adj := adj, output := output }

/-- The unaligned AVX kernel. -/
def volk_32f_s32f_s32f_mod_range_32f_u_avx (m : IntModel) (bits_or : ℚ → ℚ → ℚ)
    (is_bigger0 : Mask 8) (outputVector inputVector : Buffer) (lower_bound upper_bound : ℚ)
    (num_points : Nat) : Buffer :=
  let lower := _mm256_set1_ps lower_bound
  let upper := _mm256_set1_ps upper_bound
  let distance := _mm256_sub_ps upper lower
  let dist := upper_bound - lower_bound
  let eight_points := eight_points num_points
  let s := forLoop
    (fun _ (s : Nat × Nat × Buffer) =>
      let inPtr := s.1
      let outPtr := s.2.1
      let input := _mm256_loadu_ps inputVector inPtr
      let output := (u_avx_iteration m bits_or is_bigger0 lower upper distance input).output
      (inPtr + 8, outPtr + 8, _mm256_storeu_ps s.2.2 outPtr output))
    0 eight_points (0, 0, outputVector)
  tail_loop m s.2.2 inputVector lower_bound upper_bound dist (eight_points * 8) num_points

/-! ## The definition of section 4.1 of the specification -/

/-- The quotient `excess / distance` the scalar algorithm forms for `val`; `0`
for a value within the bounds, for which it forms none. -/
def excess_quotient (lower_bound upper_bound val : ℚ) : ℚ :=
  if val < lower_bound then (lower_bound - val) / (upper_bound - lower_bound)
  else if val > upper_bound then (val - upper_bound) / (upper_bound - lower_bound)
  else 0

/-- The integer steps of the machine on `val` are exact: `count + 1` does not
exceed `INT_MAX`, that is `excess / distance < 2^31 - 1`. -/
def count_fits (lower_bound upper_bound val : ℚ) : Prop :=
  excess_quotient lower_bound upper_bound val < 2147483647

instance (lower_bound upper_bound val : ℚ) :
    Decidable (count_fits lower_bound upper_bound val) := by
  unfold count_fits; infer_instance

/-- The integer steps on `val` give the integers of exact arithmetic: always in
`IntModel.exact`, and under `count_fits` in `IntModel.int32`. -/
def steps_exact (m : IntModel) (lower_bound upper_bound val : ℚ) : Prop :=
  m = IntModel.exact ∨ count_fits lower_bound upper_bound val

instance (m : IntModel) (lower_bound upper_bound val : ℚ) :
    Decidable (steps_exact m lower_bound upper_bound val) := by
  unfold steps_exact; infer_instance

/-- The value one lane of the vector loop of the SSE2 and SSE kernels stores for
the loaded sample `val`, with the registers of the iteration written out. -/
def lane_output (m : IntModel) (bits_or : ℚ → ℚ → ℚ) (lower_bound upper_bound val : ℚ) : ℚ :=
  let excess :=
    lane_or bits_or (if val > upper_bound then val - upper_bound else 0)
      (if val < lower_bound then lower_bound - val else 0)
  let widths := cvt_f32 (cvtt m (excess / (upper_bound - lower_bound))) + 1
  let adj :=
    lane_or bits_or (if val > upper_bound then -1 else 0) (if val < lower_bound then 1 else 0)
  val + widths * adj * (upper_bound - lower_bound)

/-! ## The record of the stores -/

/-- The offsets a store of `n` lanes at offset `p` writes, lowest lane first. -/
def vstore_offsets (n p : Nat) : List Nat := (List.range n).map (fun lane => p + lane)

/-- The record of the vector loop of a kernel of `W` lanes: the loop as the
kernels run it, `outPtr` starting at `outputVector` and advanced by `W` in
every iteration, with each store of `W` lanes replaced by the list of the
offsets it writes; one entry for each iteration, in order. -/
def vector_loop_stores (W iterations : Nat) : List (List Nat) :=
  (forLoop
    (fun _ (s : Nat × List (List Nat)) =>
      let outPtr := s.1
      (outPtr + W, s.2 ++ [vstore_offsets W outPtr]))
    0 iterations (0, [])).2

/-- The record of the tail loop `for (counter = first; counter < num_points;
counter++)`: the offsets `counter` of its stores `outputVector[counter] = ...`,
in order. -/
def tail_loop_stores (first num_points : Nat) : List Nat :=
  forLoop (fun counter log => log ++ [counter]) first (num_points - first) []

/-! ## Test data -/

theorem trunc_of_nonneg {q : ℚ} (hq : 0 ≤ q) : trunc q = ⌊q⌋ := by
  simp [trunc, hq]

theorem cvtt_i32_of_fits {q : ℚ} (hq : 0 ≤ q) (hlt : q < 2147483647) :
    cvtt_i32 q = ⌊q⌋ ∧ 0 ≤ ⌊q⌋ ∧ ⌊q⌋ ≤ 2147483646 := by
  have h0 : 0 ≤ ⌊q⌋ := Int.floor_nonneg.mpr hq
  have h1 : ⌊q⌋ < 2147483647 := by
    rw [Int.floor_lt]
    exact_mod_cast hlt
  refine ⟨?_, h0, by omega⟩
  unfold cvtt_i32
  rw [trunc_of_nonneg hq, if_pos]
  simp only [INT_MIN, INT_MAX]
  omega

theorem add_i32_one_of_fits {z : Int} (h0 : 0 ≤ z) (h1 : z ≤ 2147483646) :
    add_i32 z 1 = z + 1 := by
  unfold add_i32
  omega

theorem int_steps_of_exact (m : IntModel) {q : ℚ} (hq : 0 ≤ q)
    (h : m = IntModel.exact ∨ q < 2147483647) :
    cvtt m q = ⌊q⌋ ∧ add_int m ⌊q⌋ 1 = ⌊q⌋ + 1 := by
  cases m with
  | exact => exact ⟨trunc_of_nonneg hq, rfl⟩
  | int32 =>
    have hlt : q < 2147483647 := h.resolve_left (fun e => IntModel.noConfusion e)
    obtain ⟨hc, h0, h1⟩ := cvtt_i32_of_fits hq hlt
    exact ⟨hc, add_i32_one_of_fits h0 h1⟩

theorem widths_of_exact (m : IntModel) {q : ℚ} (hq : 0 ≤ q)
    (h : m = IntModel.exact ∨ q < 2147483647) :
    cvt_f32 (add_int m (cvtt m q) 1) = ((⌊q⌋ + 1 : Int) : ℚ) := by
  obtain ⟨hc, ha⟩ := int_steps_of_exact m hq h
  rw [hc, ha, cvt_f32]

theorem cvtt_zero (m : IntModel) : cvtt m 0 = 0 := by
  cases m <;> norm_num [cvtt, cvtt_i32, trunc, INT_MIN, INT_MAX]

/-! ## The scalar body -/

theorem excess_quotient_nonneg {lower_bound upper_bound : ℚ} (hb : lower_bound < upper_bound)
    (val : ℚ) : 0 ≤ excess_quotient lower_bound upper_bound val := by
  have hd : 0 < upper_bound - lower_bound := sub_pos.mpr hb
  unfold excess_quotient
  split_ifs with h1 h2
  · exact div_nonneg (by linarith) hd.le
  · exact div_nonneg (by linarith) hd.le
  · exact le_refl 0

theorem steps_exact_below {m : IntModel} {lower_bound upper_bound val : ℚ}
    (hv : val < lower_bound) (hf : steps_exact m lower_bound upper_bound val) :
    m = IntModel.exact ∨ (lower_bound - val) / (upper_bound - lower_bound) < 2147483647 := by
  refine hf.imp id (fun h => ?_)
  unfold count_fits excess_quotient at h
  rwa [if_pos hv] at h

theorem steps_exact_above {m : IntModel} {lower_bound upper_bound val : ℚ}
    (hn : ¬ val < lower_bound) (hv : val > upper_bound)
    (hf : steps_exact m lower_bound upper_bound val) :
    m = IntModel.exact ∨ (val - upper_bound) / (upper_bound - lower_bound) < 2147483647 := by
  refine hf.imp id (fun h => ?_)
  unfold count_fits excess_quotient at h
  rwa [if_neg hn, if_pos hv] at h

theorem scalar_body_in_range (m : IntModel) {lower_bound upper_bound dist val : ℚ}
    (h1 : lower_bound ≤ val) (h2 : val ≤ upper_bound) :
    scalar_body m lower_bound upper_bound dist val = val := by
  unfold scalar_body
  rw [if_neg (not_lt.mpr h1), if_neg (not_lt.mpr h2)]

theorem scalar_body_below {m : IntModel} {lower_bound upper_bound val : ℚ}
    (hb : lower_bound < upper_bound) (hv : val < lower_bound)
    (hf : steps_exact m lower_bound upper_bound val) :
    scalar_body m lower_bound upper_bound (upper_bound - lower_bound) val =
      val + ((⌊(lower_bound - val) / (upper_bound - lower_bound)⌋ + 1 : Int) : ℚ) *
        (upper_bound - lower_bound) := by
  have hd : 0 < upper_bound - lower_bound := sub_pos.mpr hb
  have hq : 0 ≤ (lower_bound - val) / (upper_bound - lower_bound) :=
    div_nonneg (by linarith) hd.le
  unfold scalar_body
  rw [if_pos hv]
  simp only
  rw [widths_of_exact m hq (steps_exact_below hv hf)]

theorem scalar_body_above {m : IntModel} {lower_bound upper_bound val : ℚ}
    (hb : lower_bound < upper_bound) (hv : upper_bound < val)
    (hf : steps_exact m lower_bound upper_bound val) :
    scalar_body m lower_bound upper_bound (upper_bound - lower_bound) val =
      val - ((⌊(val - upper_bound) / (upper_bound - lower_bound)⌋ + 1 : Int) : ℚ) *
        (upper_bound - lower_bound) := by
  have hd : 0 < upper_bound - lower_bound := sub_pos.mpr hb
  have hnl : ¬ val < lower_bound := not_lt.mpr (by linarith)
  have hq : 0 ≤ (val - upper_bound) / (upper_bound - lower_bound) :=
    div_nonneg (by linarith) hd.le
  unfold scalar_body
  rw [if_neg hnl, if_pos hv]
  simp only
  rw [widths_of_exact m hq (steps_exact_above hnl hv hf)]

theorem scalar_body_bounds {m : IntModel} {lower_bound upper_bound val : ℚ}
    (hb : lower_bound < upper_bound) (hf : steps_exact m lower_bound upper_bound val) :
    (lower_bound ≤ scalar_body m lower_bound upper_bound (upper_bound - lower_bound) val ∧
      scalar_body m lower_bound upper_bound (upper_bound - lower_bound) val ≤ upper_bound) ∧
    (val < lower_bound →
      lower_bound < scalar_body m lower_bound upper_bound (upper_bound - lower_bound) val) ∧
    (upper_bound < val →
      scalar_body m lower_bound upper_bound (upper_bound - lower_bound) val < upper_bound) := by
  have hd : 0 < upper_bound - lower_bound := sub_pos.mpr hb
  by_cases h1 : val < lower_bound
  · rw [scalar_body_below hb h1 hf]
    have hfl := Int.floor_le ((lower_bound - val) / (upper_bound - lower_bound))
    have hlt := Int.lt_floor_add_one ((lower_bound - val) / (upper_bound - lower_bound))
    rw [div_lt_iff₀ hd] at hlt
    rw [le_div_iff₀ hd] at hfl
    push_cast
    refine ⟨⟨?_, ?_⟩, fun _ => ?_, fun h => ?_⟩ <;> nlinarith
  · by_cases h2 : upper_bound < val
    · rw [scalar_body_above hb h2 hf]
      have hfl := Int.floor_le ((val - upper_bound) / (upper_bound - lower_bound))
      have hlt := Int.lt_floor_add_one ((val - upper_bound) / (upper_bound - lower_bound))
      rw [div_lt_iff₀ hd] at hlt
      rw [le_div_iff₀ hd] at hfl
      push_cast
      refine ⟨⟨?_, ?_⟩, fun h => ?_, fun _ => ?_⟩ <;> nlinarith
    · rw [scalar_body_in_range m (not_lt.mp h1) (not_lt.mp h2)]
      exact ⟨⟨not_lt.mp h1, not_lt.mp h2⟩, fun h => absurd h h1, fun h => absurd h h2⟩

theorem forLoop_store (f : Nat → ℚ) (n c : Nat) (out : Buffer) (j : Nat) :
    forLoop (fun counter o => store o counter (f counter)) c n out j =
      if c ≤ j ∧ j < c + n then f j else out j := by
  induction n generalizing c out with
  | zero =>
    rw [forLoop, if_neg (by omega)]
  | succ n ih =>
    rw [forLoop, ih]
    by_cases h : c + 1 ≤ j ∧ j < c + 1 + n
    · rw [if_pos h, if_pos ⟨by omega, by omega⟩]
    · rw [if_neg h]
      by_cases hj : j = c
      · subst hj
        simp [store]
      · simp only [store, if_neg hj]
        rw [if_neg (by omega)]

theorem tail_loop_apply (m : IntModel) (outputVector inputVector : Buffer)
    (lower_bound upper_bound dist : ℚ) (first num_points j : Nat) :
    tail_loop m outputVector inputVector lower_bound upper_bound dist first num_points j =
      if first ≤ j ∧ j < num_points then
        scalar_body m lower_bound upper_bound dist (inputVector j)
      else outputVector j := by
  unfold tail_loop
  rw [forLoop_store
    (fun counter => scalar_body m lower_bound upper_bound dist (inputVector counter))]
  by_cases h : first ≤ j ∧ j < num_points
  · rw [if_pos h, if_pos ⟨h.1, by omega⟩]
  · rw [if_neg h, if_neg (by omega)]

theorem generic_loop (f : Nat → ℚ) (n c p : Nat) (out : Buffer) :
    forLoop (fun inPtr (s : Nat × Buffer) => (s.1 + 1, store s.2 s.1 (f inPtr))) c n (p, out) =
      (p + n, fun j => if p ≤ j ∧ j < p + n then f (c + (j - p)) else out j) := by
  induction n generalizing c p out with
  | zero =>
    rw [forLoop]
    refine Prod.ext rfl ?_
    funext j
    simp only
    rw [if_neg (by omega)]
  | succ n ih =>
    rw [forLoop, ih]
    refine Prod.ext (by simp only; omega) ?_
    funext j
    simp only
    by_cases h : p + 1 ≤ j ∧ j < p + 1 + n
    · rw [if_pos h, if_pos ⟨by omega, by omega⟩]
      congr 1
      omega
    · rw [if_neg h]
      by_cases hj : j = p
      · subst hj
        simp [store]
      · simp only [store, if_neg hj]
        rw [if_neg (by omega)]

theorem vector_loop {W : Nat} (inp : Buffer) (blk : Vec W → Vec W) (g : ℚ → ℚ) (P : ℚ → Prop)
    (hblk : ∀ x i, P (x i) → blk x i = g (x i)) (n c pi po : Nat) (out : Buffer)
    (hP : ∀ k, k < W * n → P (inp (pi + k))) :
    forLoop
        (fun _ (s : Nat × Nat × Buffer) =>
          (s.1 + W, s.2.1 + W, vstore s.2.2 s.2.1 (blk (vload inp s.1))))
        c n (pi, po, out) =
      (pi + W * n, po + W * n,
        fun j => if po ≤ j ∧ j < po + W * n then g (inp (pi + (j - po))) else out j) := by
  induction n generalizing c pi po out with
  | zero =>
    rw [forLoop]
    refine Prod.ext rfl (Prod.ext rfl ?_)
    funext j
    simp only
    rw [if_neg (by omega)]
  | succ n ih =>
    have hmul : W * (n + 1) = W * n + W := Nat.mul_succ W n
    rw [forLoop, ih]
    · refine Prod.ext (by simp only; omega) (Prod.ext (by simp only; omega) ?_)
      funext j
      simp only
      by_cases h : po + W ≤ j ∧ j < po + W + W * n
      · rw [if_pos h, if_pos ⟨by omega, by omega⟩]
        congr 2
        omega
      · rw [if_neg h]
        by_cases hj : po ≤ j ∧ j - po < W
        · rw [if_pos ⟨hj.1, by omega⟩]
          simp only [vstore, dif_pos hj]
          rw [hblk]
          · rfl
          · exact hP (j - po) (by omega)
        · rw [if_neg (by omega)]
          simp only [vstore, dif_neg hj]
    · intro k hk
      have := hP (W + k) (by omega)
      rwa [← Nat.add_assoc] at this

/-! ## Lanes of the vector loops -/

theorem u_sse2_iteration_output (m : IntModel) (bits_or : ℚ → ℚ → ℚ)
    (lower_bound upper_bound : ℚ) (x : Vec 4) (i : Fin 4) :
    (u_sse2_iteration m bits_or (_mm_set_ps1 lower_bound) (_mm_set_ps1 upper_bound)
        (_mm_sub_ps (_mm_set_ps1 upper_bound) (_mm_set_ps1 lower_bound)) x).output i =
      lane_output m bits_or lower_bound upper_bound (x i) := by
  simp [u_sse2_iteration, lane_output, _mm_set_ps1, _mm_sub_ps, _mm_cmplt_ps, _mm_cmpgt_ps,
    _mm_and_ps, _mm_or_ps, _mm_div_ps, _mm_cvtepi32_ps, _mm_cvttps_epi32, _mm_add_ps,
    _mm_mul_ps, vset1, vsub, vcmplt, vcmpgt, vand, vor, vdiv, vcvt, vcvtt, vadd, vmul]

theorem a_sse2_iteration_output (m : IntModel) (bits_or : ℚ → ℚ → ℚ)
    (lower_bound upper_bound : ℚ) (x : Vec 4) (i : Fin 4) :
    (a_sse2_iteration m bits_or (_mm_set_ps1 lower_bound) (_mm_set_ps1 upper_bound)
        (_mm_sub_ps (_mm_set_ps1 upper_bound) (_mm_set_ps1 lower_bound)) x).output i =
      lane_output m bits_or lower_bound upper_bound (x i) := by
  simp [a_sse2_iteration, lane_output, _mm_set_ps1, _mm_sub_ps, _mm_cmplt_ps, _mm_cmpgt_ps,
    _mm_and_ps, _mm_or_ps, _mm_div_ps, _mm_cvtepi32_ps, _mm_cvttps_epi32, _mm_add_ps,
    _mm_mul_ps, vset1, vsub, vcmplt, vcmpgt, vand, vor, vdiv, vcvt, vcvtt, vadd, vmul]

theorem u_sse_iteration_output (m : IntModel) (bits_or : ℚ → ℚ → ℚ)
    (lower_bound upper_bound : ℚ) (x : Vec 4) (i : Fin 4) :
    (u_sse_iteration m bits_or (_mm_set_ps1 lower_bound) (_mm_set_ps1 upper_bound)
        (_mm_sub_ps (_mm_set_ps1 upper_bound) (_mm_set_ps1 lower_bound)) x).output i =
      lane_output m bits_or lower_bound upper_bound (x i) := by
  fin_cases i <;>
  simp [u_sse_iteration, lane_output, _mm_set_ps1, _mm_sub_ps, _mm_cmplt_ps, _mm_cmpgt_ps,
    _mm_and_ps, _mm_or_ps, _mm_div_ps, _mm_setzero_ps, _mm_movehl_ps, _mm_cvttps_pi32,
    _mm_cvtpi32x2_ps, _mm_add_ps, _mm_mul_ps, vset1, vsub, vcmplt, vcmpgt, vand, vor, vdiv,
    vadd, vmul]

theorem a_sse_iteration_output (m : IntModel) (bits_or : ℚ → ℚ → ℚ)
    (lower_bound upper_bound : ℚ) (x : Vec 4) (i : Fin 4) :
    (a_sse_iteration m bits_or (_mm_set_ps1 lower_bound) (_mm_set_ps1 upper_bound)
        (_mm_sub_ps (_mm_set_ps1 upper_bound) (_mm_set_ps1 lower_bound)) x).output i =
      lane_output m bits_or lower_bound upper_bound (x i) := by
  fin_cases i <;>
  simp [a_sse_iteration, lane_output, _mm_set_ps1, _mm_sub_ps, _mm_cmplt_ps, _mm_cmpgt_ps,
    _mm_and_ps, _mm_or_ps, _mm_div_ps, _mm_setzero_ps, _mm_movehl_ps, _mm_cvttps_pi32,
    _mm_cvtpi32x2_ps, _mm_add_ps, _mm_mul_ps, vset1, vsub, vcmplt, vcmpgt, vand, vor, vdiv,
    vadd, vmul]

theorem lane_output_eq_scalar_body (m : IntModel) (bits_or : ℚ → ℚ → ℚ)
    {lower_bound upper_bound val : ℚ} (hb : lower_bound < upper_bound)
    (hf : steps_exact m lower_bound upper_bound val) :
    lane_output m bits_or lower_bound upper_bound val =
      scalar_body m lower_bound upper_bound (upper_bound - lower_bound) val := by
  have hd : 0 < upper_bound - lower_bound := sub_pos.mpr hb
  by_cases h1 : val < lower_bound
  · have h2 : ¬ val > upper_bound := not_lt.mpr (by linarith)
    have hq : 0 ≤ (lower_bound - val) / (upper_bound - lower_bound) :=
      div_nonneg (by linarith) hd.le
    obtain ⟨hc, ha⟩ := int_steps_of_exact m hq (steps_exact_below h1 hf)
    unfold lane_output scalar_body
    simp only [if_pos h1, if_neg h2, lane_or, if_true]
    rw [hc, ha]
    simp only [cvt_f32]
    push_cast
    ring
  · by_cases h2 : val > upper_bound
    · have hq : 0 ≤ (val - upper_bound) / (upper_bound - lower_bound) :=
        div_nonneg (by linarith) hd.le
      obtain ⟨hc, ha⟩ := int_steps_of_exact m hq (steps_exact_above h1 h2 hf)
      have hne : val - upper_bound ≠ 0 := ne_of_gt (by linarith)
      unfold lane_output scalar_body
      simp only [if_neg h1, if_pos h2, lane_or, if_true, if_neg hne]
      rw [hc, ha]
      simp only [cvt_f32]
      norm_num
      ring
    · unfold lane_output scalar_body
      simp only [if_neg h1, if_neg h2, lane_or, if_true, zero_div, cvtt_zero]
      simp [cvt_f32]

/-! ## The kernels, index by index -/

theorem generic_apply (m : IntModel) (outputVector inputVector : Buffer)
    (lower_bound upper_bound : ℚ) (num_points j : Nat) :
    volk_32f_s32f_s32f_mod_range_32f_generic m outputVector inputVector lower_bound
        upper_bound num_points j =
      if j < num_points then
        scalar_body m lower_bound upper_bound (upper_bound - lower_bound) (inputVector j)
      else outputVector j := by
  unfold volk_32f_s32f_s32f_mod_range_32f_generic
  simp only
  rw [generic_loop
    (fun i => scalar_body m lower_bound upper_bound (upper_bound - lower_bound) (inputVector i))]
  simp

theorem vector_kernel_apply {W : Nat} (m : IntModel) (blk : Vec W → Vec W)
    (bits_or : ℚ → ℚ → ℚ) (outputVector inputVector : Buffer) {lower_bound upper_bound : ℚ}
    (hb : lower_bound < upper_bound) (num_points : Nat)
    (hblk : ∀ x i, blk x i = lane_output m bits_or lower_bound upper_bound (x i))
    (hf : ∀ i, i < num_points → steps_exact m lower_bound upper_bound (inputVector i))
    (j : Nat) :
    tail_loop m
        (forLoop
          (fun _ (s : Nat × Nat × Buffer) =>
            (s.1 + W, s.2.1 + W, vstore s.2.2 s.2.1 (blk (vload inputVector s.1))))
          0 (num_points / W) (0, 0, outputVector)).2.2
        inputVector lower_bound upper_bound (upper_bound - lower_bound)
        (num_points / W * W) num_points j =
      if j < num_points then
        scalar_body m lower_bound upper_bound (upper_bound - lower_bound) (inputVector j)
      else outputVector j := by
  have hle : W * (num_points / W) ≤ num_points := Nat.mul_div_le num_points W
  have hcomm : num_points / W * W = W * (num_points / W) := Nat.mul_comm _ _
  rw [tail_loop_apply,
    vector_loop inputVector blk
      (scalar_body m lower_bound upper_bound (upper_bound - lower_bound))
      (steps_exact m lower_bound upper_bound)
      (fun x i h => by rw [hblk, lane_output_eq_scalar_body m bits_or hb h])
      (num_points / W) 0 0 0 outputVector
      (fun k hk => by
        rw [Nat.zero_add]
        exact hf k (by omega))]
  simp only [hcomm, Nat.zero_add, Nat.sub_zero, Nat.zero_le, true_and]
  by_cases h1 : W * (num_points / W) ≤ j ∧ j < num_points
  · rw [if_pos h1, if_pos h1.2]
  · rw [if_neg h1]
    by_cases h2 : j < W * (num_points / W)
    · rw [if_pos h2, if_pos (by omega)]
    · rw [if_neg h2, if_neg (by omega)]

theorem u_sse2_apply (m : IntModel) (bits_or : ℚ → ℚ → ℚ) (outputVector inputVector : Buffer)
    {lower_bound upper_bound : ℚ} (hb : lower_bound < upper_bound) (num_points : Nat)
    (hf : ∀ i, i < num_points → steps_exact m lower_bound upper_bound (inputVector i))
    (j : Nat) :
    volk_32f_s32f_s32f_mod_range_32f_u_sse2 m bits_or outputVector inputVector lower_bound
        upper_bound num_points j =
      if j < num_points then
        scalar_body m lower_bound upper_bound (upper_bound - lower_bound) (inputVector j)
      else outputVector j :=
  vector_kernel_apply m
    (fun x => (u_sse2_iteration m bits_or (_mm_set_ps1 lower_bound) (_mm_set_ps1 upper_bound)
      (_mm_sub_ps (_mm_set_ps1 upper_bound) (_mm_set_ps1 lower_bound)) x).output)
    bits_or outputVector inputVector hb num_points
    (u_sse2_iteration_output m bits_or lower_bound upper_bound) hf j

theorem a_sse2_apply (m : IntModel) (bits_or : ℚ → ℚ → ℚ) (outputVector inputVector : Buffer)
    {lower_bound upper_bound : ℚ} (hb : lower_bound < upper_bound) (num_points : Nat)
    (hf : ∀ i, i < num_points → steps_exact m lower_bound upper_bound (inputVector i))
    (j : Nat) :
    volk_32f_s32f_s32f_mod_range_32f_a_sse2 m bits_or outputVector inputVector lower_bound
        upper_bound num_points j =
      if j < num_points then
        scalar_body m lower_bound upper_bound (upper_bound - lower_bound) (inputVector j)
      else outputVector j :=
  vector_kernel_apply m
    (fun x => (a_sse2_iteration m bits_or (_mm_set_ps1 lower_bound) (_mm_set_ps1 upper_bound)
      (_mm_sub_ps (_mm_set_ps1 upper_bound) (_mm_set_ps1 lower_bound)) x).output)
    bits_or outputVector inputVector hb num_points
    (a_sse2_iteration_output m bits_or lower_bound upper_bound) hf j

theorem u_sse_apply (m : IntModel) (bits_or : ℚ → ℚ → ℚ) (outputVector inputVector : Buffer)
    {lower_bound upper_bound : ℚ} (hb : lower_bound < upper_bound) (num_points : Nat)
    (hf : ∀ i, i < num_points → steps_exact m lower_bound upper_bound (inputVector i))
    (j : Nat) :
    volk_32f_s32f_s32f_mod_range_32f_u_sse m bits_or outputVector inputVector lower_bound
        upper_bound num_points j =
      if j < num_points then
        scalar_body m lower_bound upper_bound (upper_bound - lower_bound) (inputVector j)
      else outputVector j :=
  vector_kernel_apply m
    (fun x => (u_sse_iteration m bits_or (_mm_set_ps1 lower_bound) (_mm_set_ps1 upper_bound)
      (_mm_sub_ps (_mm_set_ps1 upper_bound) (_mm_set_ps1 lower_bound)) x).output)
    bits_or outputVector inputVector hb num_points
    (u_sse_iteration_output m bits_or lower_bound upper_bound) hf j

theorem a_sse_apply (m : IntModel) (bits_or : ℚ → ℚ → ℚ) (outputVector inputVector : Buffer)
    {lower_bound upper_bound : ℚ} (hb : lower_bound < upper_bound) (num_points : Nat)
    (hf : ∀ i, i < num_points → steps_exact m lower_bound upper_bound (inputVector i))
    (j : Nat) :
    volk_32f_s32f_s32f_mod_range_32f_a_sse m bits_or outputVector inputVector lower_bound
        upper_bound num_points j =
      if j < num_points then
        scalar_body m lower_bound upper_bound (upper_bound - lower_bound) (inputVector j)
      else outputVector j :=
  vector_kernel_apply m
    (fun x => (a_sse_iteration m bits_or (_mm_set_ps1 lower_bound) (_mm_set_ps1 upper_bound)
      (_mm_sub_ps (_mm_set_ps1 upper_bound) (_mm_set_ps1 lower_bound)) x).output)
    bits_or outputVector inputVector hb num_points
    (a_sse_iteration_output m bits_or lower_bound upper_bound) hf j

theorem sse_eq_generic_of_exact (m : IntModel) (bits_or : ℚ → ℚ → ℚ)
    (outputVector inputVector : Buffer) {lower_bound upper_bound : ℚ}
    (hb : lower_bound < upper_bound) (num_points : Nat)
    (hf : ∀ i, i < num_points → steps_exact m lower_bound upper_bound (inputVector i)) :
    volk_32f_s32f_s32f_mod_range_32f_u_sse2 m bits_or outputVector inputVector lower_bound
        upper_bound num_points =
      volk_32f_s32f_s32f_mod_range_32f_generic m outputVector inputVector lower_bound
        upper_bound num_points ∧
    volk_32f_s32f_s32f_mod_range_32f_u_sse m bits_or outputVector inputVector lower_bound
        upper_bound num_points =
      volk_32f_s32f_s32f_mod_range_32f_generic m outputVector inputVector lower_bound
        upper_bound num_points := by
  constructor
  · funext j
    rw [u_sse2_apply m bits_or outputVector inputVector hb num_points hf, generic_apply]
  · funext j
    rw [u_sse_apply m bits_or outputVector inputVector hb num_points hf, generic_apply]

theorem generic_bounds_of_exact (m : IntModel) (outputVector inputVector : Buffer)
    {lower_bound upper_bound : ℚ} (hb : lower_bound < upper_bound) {num_points i : Nat}
    (hi : i < num_points) (hf : steps_exact m lower_bound upper_bound (inputVector i)) :
    (lower_bound ≤
        volk_32f_s32f_s32f_mod_range_32f_generic m outputVector inputVector lower_bound
          upper_bound num_points i ∧
      volk_32f_s32f_s32f_mod_range_32f_generic m outputVector inputVector lower_bound
          upper_bound num_points i ≤ upper_bound) ∧
    (inputVector i < lower_bound →
      lower_bound <
        volk_32f_s32f_s32f_mod_range_32f_generic m outputVector inputVector lower_bound
          upper_bound num_points i) ∧
    (upper_bound < inputVector i →
      volk_32f_s32f_s32f_mod_range_32f_generic m outputVector inputVector lower_bound
          upper_bound num_points i < upper_bound) := by
  rw [generic_apply, if_pos hi]
  exact scalar_body_bounds hb hf

theorem generic_idempotent_of_exact (m : IntModel) (outputVector outputVector2 inputVector : Buffer)
    {lower_bound upper_bound : ℚ} (hb : lower_bound < upper_bound) (num_points : Nat)
    (hf : ∀ i, i < num_points → steps_exact m lower_bound upper_bound (inputVector i)) :
    ∀ i, i < num_points →
      volk_32f_s32f_s32f_mod_range_32f_generic m outputVector2
          (volk_32f_s32f_s32f_mod_range_32f_generic m outputVector inputVector lower_bound
            upper_bound num_points)
          lower_bound upper_bound num_points i =
        volk_32f_s32f_s32f_mod_range_32f_generic m outputVector inputVector lower_bound
          upper_bound num_points i := by
  intro i hi
  rw [generic_apply m outputVector2, if_pos hi]
  have h := (generic_bounds_of_exact m outputVector inputVector hb hi (hf i hi)).1
  exact scalar_body_in_range m h.1 h.2

/-! ## Claims -/

/-- C4, as amended. For bounds with `upper_bound > lower_bound`, a sample exactly
equal to `lower_bound` is treated as within the bounds: the generic kernel writes
it back unchanged, as `lower_bound`. -/
theorem generic_lower_boundary (m : IntModel) (outputVector inputVector : Buffer)
    (lower_bound upper_bound : ℚ) (num_points i : Nat) (hb : lower_bound < upper_bound)
    (hi : i < num_points) (hv : inputVector i = lower_bound) :
    volk_32f_s32f_s32f_mod_range_32f_generic m outputVector inputVector lower_bound
        upper_bound num_points i = lower_bound := by
  rw [generic_apply, if_pos hi, hv]
  exact scalar_body_in_range m (le_refl lower_bound) hb.le

/-- Witness of `generic_lower_boundary`: the sample `0` with bounds `(0, 1)`. -/
theorem generic_lower_boundary_witness :
    ((0 : ℚ) < 1 ∧ 0 < 1 ∧ (fun _ : Nat => (0 : ℚ)) 0 = 0) ∧
    volk_32f_s32f_s32f_mod_range_32f_generic IntModel.int32 (fun _ => 7) (fun _ => 0) 0 1 1
        0 = 0 :=
  ⟨⟨by norm_num, by norm_num, rfl⟩,
    generic_lower_boundary IntModel.int32 (fun _ => 7) (fun _ => 0) 0 1 1 0 (by norm_num)
      (by norm_num) rfl⟩

/-- C4, as stated, fails: with bounds `(-1, 1)` the sample `-1 = lower_bound` is
written back as `-1`, not as `lower_bound + distance = 1`, in exact arithmetic as
on the machine. -/
theorem generic_lower_boundary_not_wrapped :
    (-1 : ℚ) < 1 ∧
    volk_32f_s32f_s32f_mod_range_32f_generic IntModel.int32 (fun _ => 0) (fun _ => -1) (-1)
        1 1 0 = -1 ∧
    volk_32f_s32f_s32f_mod_range_32f_generic IntModel.int32 (fun _ => 0) (fun _ => -1) (-1)
        1 1 0 ≠ -1 + (1 - -1) ∧
    volk_32f_s32f_s32f_mod_range_32f_generic IntModel.exact (fun _ => 0) (fun _ => -1) (-1)
        1 1 0 ≠ -1 + (1 - -1) := by
  have h : ∀ m, volk_32f_s32f_s32f_mod_range_32f_generic m (fun _ => 0) (fun _ => -1) (-1)
      1 1 0 = -1 := by
    intro m
    rw [generic_apply]
    norm_num [scalar_body]
  refine ⟨by norm_num, h _, ?_, ?_⟩ <;>
  · rw [h]
    norm_num

/-- C5. Every sample with `lower_bound <= input[i] <= upper_bound` (so every
sample with `lower_bound < input[i] <= upper_bound`, and `input[i] ==
upper_bound`) is written back by the generic kernel unchanged. -/
theorem generic_identity_in_range (m : IntModel) (outputVector inputVector : Buffer)
    (lower_bound upper_bound : ℚ) (num_points i : Nat) (hi : i < num_points)
    (h1 : lower_bound ≤ inputVector i) (h2 : inputVector i ≤ upper_bound) :
    volk_32f_s32f_s32f_mod_range_32f_generic m outputVector inputVector lower_bound
        upper_bound num_points i = inputVector i := by
  rw [generic_apply, if_pos hi]
  exact scalar_body_in_range m h1 h2

/-- Witness of `generic_identity_in_range`: the sample `1 = upper_bound` with bounds
`(0, 1)`. -/
theorem generic_identity_in_range_witness :
    ((0 : Nat) < 1 ∧ (0 : ℚ) ≤ (fun _ : Nat => (1 : ℚ)) 0 ∧
      (fun _ : Nat => (1 : ℚ)) 0 ≤ 1) ∧
    volk_32f_s32f_s32f_mod_range_32f_generic IntModel.int32 (fun _ => 7) (fun _ => 1) 0 1 1
        0 = (fun _ : Nat => (1 : ℚ)) 0 :=
  ⟨⟨by norm_num, by norm_num, by norm_num⟩,
    generic_identity_in_range IntModel.int32 (fun _ => 7) (fun _ => 1) 0 1 1 0 (by norm_num)
      (by norm_num) (by norm_num)⟩

/-- C6. Idempotence, over exact arithmetic: for every input and bounds with
`upper_bound > lower_bound`, running the generic kernel on its own output with
the same bounds returns that output unchanged. The same holds with the 32 bit
`count` of the machine for every input whose samples keep `count + 1` within
`INT_MAX`. -/
theorem generic_idempotent (outputVector outputVector2 inputVector : Buffer)
    (lower_bound upper_bound : ℚ) (num_points : Nat) (hb : lower_bound < upper_bound) :
    (∀ i, i < num_points →
      volk_32f_s32f_s32f_mod_range_32f_generic IntModel.exact outputVector2
          (volk_32f_s32f_s32f_mod_range_32f_generic IntModel.exact outputVector inputVector
            lower_bound upper_bound num_points)
          lower_bound upper_bound num_points i =
        volk_32f_s32f_s32f_mod_range_32f_generic IntModel.exact outputVector inputVector
          lower_bound upper_bound num_points i) ∧
    ((∀ i, i < num_points → count_fits lower_bound upper_bound (inputVector i)) →
      ∀ i, i < num_points →
        volk_32f_s32f_s32f_mod_range_32f_generic IntModel.int32 outputVector2
            (volk_32f_s32f_s32f_mod_range_32f_generic IntModel.int32 outputVector inputVector
              lower_bound upper_bound num_points)
            lower_bound upper_bound num_points i =
          volk_32f_s32f_s32f_mod_range_32f_generic IntModel.int32 outputVector inputVector
            lower_bound upper_bound num_points i) :=
  ⟨generic_idempotent_of_exact IntModel.exact outputVector outputVector2 inputVector hb
      num_points (fun _ _ => Or.inl rfl),
    fun hf => generic_idempotent_of_exact IntModel.int32 outputVector outputVector2
      inputVector hb num_points (fun i hi => Or.inr (hf i hi))⟩

/-- Witness of `generic_idempotent`: the samples `-3/2`, `1/2`, `5/2` with bounds
`(0, 1)`, over exact arithmetic. -/
theorem generic_idempotent_witness :
    (0 : ℚ) < 1 ∧
    ∀ i, i < 3 →
      volk_32f_s32f_s32f_mod_range_32f_generic IntModel.exact (fun _ => 0)
          (volk_32f_s32f_s32f_mod_range_32f_generic IntModel.exact (fun _ => 0)
            (fun j => (j : ℚ) * 2 - 3 / 2) 0 1 3)
          0 1 3 i =
        volk_32f_s32f_s32f_mod_range_32f_generic IntModel.exact (fun _ => 0)
          (fun j => (j : ℚ) * 2 - 3 / 2) 0 1 3 i :=
  ⟨by norm_num,
    (generic_idempotent (fun _ => 0) (fun _ => 0) (fun j => (j : ℚ) * 2 - 3 / 2) 0 1 3
      (by norm_num)).1⟩

/-- C7. Over exact arithmetic, the lane truncation being truncation toward zero:
for every `num_points`, bounds with `upper_bound > lower_bound` and input, the
SSE2 kernel and the SSE kernel each leave the output buffer as the generic kernel
does. The same holds with the 32 bit integers of the machine for every input
whose samples keep `count + 1` within `INT_MAX`. -/
theorem sse2_sse_eq_generic (bits_or : ℚ → ℚ → ℚ) (outputVector inputVector : Buffer)
    (lower_bound upper_bound : ℚ) (num_points : Nat) (hb : lower_bound < upper_bound) :
    (volk_32f_s32f_s32f_mod_range_32f_u_sse2 IntModel.exact bits_or outputVector inputVector
          lower_bound upper_bound num_points =
        volk_32f_s32f_s32f_mod_range_32f_generic IntModel.exact outputVector inputVector
          lower_bound upper_bound num_points ∧
      volk_32f_s32f_s32f_mod_range_32f_u_sse IntModel.exact bits_or outputVector inputVector
          lower_bound upper_bound num_points =
        volk_32f_s32f_s32f_mod_range_32f_generic IntModel.exact outputVector inputVector
          lower_bound upper_bound num_points) ∧
    ((∀ i, i < num_points → count_fits lower_bound upper_bound (inputVector i)) →
      volk_32f_s32f_s32f_mod_range_32f_u_sse2 IntModel.int32 bits_or outputVector inputVector
          lower_bound upper_bound num_points =
        volk_32f_s32f_s32f_mod_range_32f_generic IntModel.int32 outputVector inputVector
          lower_bound upper_bound num_points ∧
      volk_32f_s32f_s32f_mod_range_32f_u_sse IntModel.int32 bits_or outputVector inputVector
          lower_bound upper_bound num_points =
        volk_32f_s32f_s32f_mod_range_32f_generic IntModel.int32 outputVector inputVector
          lower_bound upper_bound num_points) :=
  ⟨sse_eq_generic_of_exact IntModel.exact bits_or outputVector inputVector hb num_points
      (fun _ _ => Or.inl rfl),
    fun hf => sse_eq_generic_of_exact IntModel.int32 bits_or outputVector inputVector hb
      num_points (fun i hi => Or.inr (hf i hi))⟩

/-- Witness of `sse2_sse_eq_generic`: six samples around the bounds `(0, 1)`, one
vector iteration and a tail of two, over exact arithmetic. -/
theorem sse2_sse_eq_generic_witness :
    (0 : ℚ) < 1 ∧
    volk_32f_s32f_s32f_mod_range_32f_u_sse2 IntModel.exact (fun a _ => a) (fun _ => 0)
        (fun j => (j : ℚ) - 5 / 2) 0 1 6 =
      volk_32f_s32f_s32f_mod_range_32f_generic IntModel.exact (fun _ => 0)
        (fun j => (j : ℚ) - 5 / 2) 0 1 6 ∧
    volk_32f_s32f_s32f_mod_range_32f_u_sse IntModel.exact (fun a _ => a) (fun _ => 0)
        (fun j => (j : ℚ) - 5 / 2) 0 1 6 =
      volk_32f_s32f_s32f_mod_range_32f_generic IntModel.exact (fun _ => 0)
        (fun j => (j : ℚ) - 5 / 2) 0 1 6 :=
  ⟨by norm_num,
    (sse2_sse_eq_generic (fun a _ => a) (fun _ => 0) (fun j => (j : ℚ) - 5 / 2) 0 1 6
      (by norm_num)).1⟩

/-- C8, the code against the claim. With bounds `(0, 1)` and eight samples `-1/2`,
the AVX kernel writes `-1/2` back at offset `0`, in exact arithmetic as on the
machine, whatever the unassigned register `is_bigger` holds and whatever the OR
of two non-zero patterns is, where the generic kernel writes `1/2`: `is_smaller`
is overwritten by `input > upper`, so a sample below `lower_bound` never gets an
adjustment. -/
theorem u_avx_differs_from_generic (m : IntModel) (bits_or : ℚ → ℚ → ℚ)
    (is_bigger0 : Mask 8) :
    volk_32f_s32f_s32f_mod_range_32f_u_avx m bits_or is_bigger0 (fun _ => 0) (fun _ => -1 / 2)
        0 1 8 0 = -1 / 2 ∧
    volk_32f_s32f_s32f_mod_range_32f_generic m (fun _ => 0) (fun _ => -1 / 2) 0 1 8 0 =
      1 / 2 := by
  have hc : ⌈(-(3 / 2) : ℚ)⌉ = -1 := by
    rw [Int.ceil_eq_iff]
    norm_num
  constructor
  · cases m <;> cases h : is_bigger0 0 <;>
    norm_num [cvtt, volk_32f_s32f_s32f_mod_range_32f_u_avx, eight_points, forLoop,
      tail_loop, u_avx_iteration, _mm256_set1_ps, _mm256_sub_ps, _mm256_cmp_ps, _mm256_loadu_ps,
      _mm256_storeu_ps, _mm256_and_ps, _mm256_or_ps, _mm256_div_ps, _mm256_cvtepi32_ps,
      _mm256_cvttps_epi32, _mm256_add_ps, _mm256_mul_ps, _mm_mul256_ps, vset1, vsub, vcmplt,
      vcmpgt, vand, vor, vdiv, vcvt, vcvtt, vadd, vmul, vload, vstore, lane_or, h, cvtt_i32,
      trunc, cvt_f32, INT_MIN, INT_MAX, hc]
  · rw [generic_apply]
    cases m <;>
    norm_num [scalar_body, cvtt, add_int, cvtt_i32, trunc, add_i32, cvt_f32, INT_MIN, INT_MAX]

/-- C9, as amended. For every `num_points` below the vector width (below 8 for
the AVX kernel, below 4 for the SSE2 and SSE kernels) the vector loop runs zero
iterations, so only the scalar tail loop runs, and the kernel leaves the output
buffer as the generic kernel does, for every bounds and input. From the vector
width on, a multiple of it or not, the vector loop runs `num_points / 8` (AVX) or
`num_points / 4` (SSE2, SSE) iterations, which is not zero; the SSE2 and SSE
kernels still leave the output buffer as the generic kernel does, over exact
arithmetic and for bounds with `upper_bound > lower_bound`. -/
theorem tail_only_below_vector_width (m : IntModel) (bits_or : ℚ → ℚ → ℚ)
    (is_bigger0 : Mask 8) (outputVector inputVector : Buffer) (lower_bound upper_bound : ℚ)
    (num_points : Nat) :
    (num_points < 8 →
      eight_points num_points = 0 ∧
      volk_32f_s32f_s32f_mod_range_32f_u_avx m bits_or is_bigger0 outputVector inputVector
          lower_bound upper_bound num_points =
        volk_32f_s32f_s32f_mod_range_32f_generic m outputVector inputVector lower_bound
          upper_bound num_points) ∧
    (num_points < 4 →
      quarter_points num_points = 0 ∧
      volk_32f_s32f_s32f_mod_range_32f_u_sse2 m bits_or outputVector inputVector lower_bound
          upper_bound num_points =
        volk_32f_s32f_s32f_mod_range_32f_generic m outputVector inputVector lower_bound
          upper_bound num_points ∧
      volk_32f_s32f_s32f_mod_range_32f_u_sse m bits_or outputVector inputVector lower_bound
          upper_bound num_points =
        volk_32f_s32f_s32f_mod_range_32f_generic m outputVector inputVector lower_bound
          upper_bound num_points) ∧
    (8 ≤ num_points → 0 < eight_points num_points) ∧
    (4 ≤ num_points → 0 < quarter_points num_points) ∧
    (lower_bound < upper_bound →
      volk_32f_s32f_s32f_mod_range_32f_u_sse2 IntModel.exact bits_or outputVector inputVector
          lower_bound upper_bound num_points =
        volk_32f_s32f_s32f_mod_range_32f_generic IntModel.exact outputVector inputVector
          lower_bound upper_bound num_points ∧
      volk_32f_s32f_s32f_mod_range_32f_u_sse IntModel.exact bits_or outputVector inputVector
          lower_bound upper_bound num_points =
        volk_32f_s32f_s32f_mod_range_32f_generic IntModel.exact outputVector inputVector
          lower_bound upper_bound num_points) := by
  refine ⟨fun h => ?_, fun h => ?_, fun h => ?_, fun h => ?_, fun hb =>
    sse_eq_generic_of_exact IntModel.exact bits_or outputVector inputVector hb num_points
      (fun _ _ => Or.inl rfl)⟩
  · have h0 : eight_points num_points = 0 := by
      unfold eight_points
      omega
    refine ⟨h0, ?_⟩
    funext j
    unfold volk_32f_s32f_s32f_mod_range_32f_u_avx
    simp only [h0, forLoop]
    rw [tail_loop_apply, generic_apply]
    simp
  · have h0 : quarter_points num_points = 0 := by
      unfold quarter_points
      omega
    refine ⟨h0, ?_, ?_⟩
    · funext j
      unfold volk_32f_s32f_s32f_mod_range_32f_u_sse2
      simp only [h0, forLoop]
      rw [tail_loop_apply, generic_apply]
      simp
    · funext j
      unfold volk_32f_s32f_s32f_mod_range_32f_u_sse
      simp only [h0, forLoop]
      rw [tail_loop_apply, generic_apply]
      simp
  · unfold eight_points
    omega
  · unfold quarter_points
    omega

/-- Witness of `tail_only_below_vector_width`: seven samples for the AVX kernel,
three for the SSE2 and SSE kernels, with bounds `(0, 1)`. -/
theorem tail_only_below_vector_width_witness :
    ((7 : Nat) < 8 ∧ (3 : Nat) < 4) ∧
    (eight_points 7 = 0 ∧
      volk_32f_s32f_s32f_mod_range_32f_u_avx IntModel.int32 (fun a _ => a) (fun _ => false)
          (fun _ => 0) (fun j => (j : ℚ) - 5 / 2) 0 1 7 =
        volk_32f_s32f_s32f_mod_range_32f_generic IntModel.int32 (fun _ => 0)
          (fun j => (j : ℚ) - 5 / 2) 0 1 7) ∧
    quarter_points 3 = 0 :=
  ⟨⟨by decide, by decide⟩,
    (tail_only_below_vector_width IntModel.int32 (fun a _ => a) (fun _ => false) (fun _ => 0)
      (fun j => (j : ℚ) - 5 / 2) 0 1 7).1 (by decide),
    ((tail_only_below_vector_width IntModel.int32 (fun a _ => a) (fun _ => false) (fun _ => 0)
      (fun j => (j : ℚ) - 5 / 2) 0 1 3).2.1 (by decide)).1⟩

/-- C9, as stated, fails: 9 and 13 are not multiples of 8 and the vector loop of
the AVX kernel runs one iteration on them; 5, 6 and 7 are not multiples of 4 and
the vector loop of the SSE2 and SSE kernels runs one iteration on them. On nine
samples `-1/2` with bounds `(0, 1)` the output of the AVX kernel at offset `0`,
written by the vector loop, is not the one of the generic kernel. -/
theorem vector_loop_runs_off_multiples :
    (9 % 8 ≠ 0 ∧ eight_points 9 = 1) ∧ (13 % 8 ≠ 0 ∧ eight_points 13 = 1) ∧
    (5 % 4 ≠ 0 ∧ quarter_points 5 = 1) ∧ (6 % 4 ≠ 0 ∧ quarter_points 6 = 1) ∧
    (7 % 4 ≠ 0 ∧ quarter_points 7 = 1) ∧
    volk_32f_s32f_s32f_mod_range_32f_u_avx IntModel.int32 (fun a _ => a) (fun _ => false)
        (fun _ => 0) (fun _ => -1 / 2) 0 1 9 0 ≠
      volk_32f_s32f_s32f_mod_range_32f_generic IntModel.int32 (fun _ => 0) (fun _ => -1 / 2)
        0 1 9 0 ∧
    volk_32f_s32f_s32f_mod_range_32f_u_avx IntModel.exact (fun a _ => a) (fun _ => false)
        (fun _ => 0) (fun _ => -1 / 2) 0 1 9 0 ≠
      volk_32f_s32f_s32f_mod_range_32f_generic IntModel.exact (fun _ => 0) (fun _ => -1 / 2)
        0 1 9 0 := by
  refine ⟨by decide, by decide, by decide, by decide, by decide, ?_, ?_⟩ <;>
  rw [generic_apply] <;>
  norm_num [cvtt, add_int, volk_32f_s32f_s32f_mod_range_32f_u_avx, eight_points, forLoop,
    tail_loop, u_avx_iteration, _mm256_set1_ps, _mm256_sub_ps, _mm256_cmp_ps, _mm256_loadu_ps,
    _mm256_storeu_ps, _mm256_and_ps, _mm256_or_ps, _mm256_div_ps, _mm256_cvtepi32_ps,
    _mm256_cvttps_epi32, _mm256_add_ps, _mm256_mul_ps, _mm_mul256_ps, vset1, vsub, vcmplt,
    vcmpgt, vand, vor, vdiv, vcvt, vcvtt, vadd, vmul, vload, vstore, lane_or, cvtt_i32,
    trunc, cvt_f32, INT_MIN, INT_MAX, scalar_body, add_i32, store]

/-- C10. For every `num_points`, bounds and input, in exact arithmetic as on the
machine, the unaligned and the aligned SSE2 kernels leave the output buffer the
same, and so do the unaligned and the aligned SSE kernels. -/
theorem aligned_eq_unaligned (m : IntModel) (bits_or : ℚ → ℚ → ℚ)
    (outputVector inputVector : Buffer) (lower_bound upper_bound : ℚ) (num_points : Nat) :
    volk_32f_s32f_s32f_mod_range_32f_u_sse2 m bits_or outputVector inputVector lower_bound
        upper_bound num_points =
      volk_32f_s32f_s32f_mod_range_32f_a_sse2 m bits_or outputVector inputVector lower_bound
        upper_bound num_points ∧
    volk_32f_s32f_s32f_mod_range_32f_u_sse m bits_or outputVector inputVector lower_bound
        upper_bound num_points =
      volk_32f_s32f_s32f_mod_range_32f_a_sse m bits_or outputVector inputVector lower_bound
        upper_bound num_points :=
  ⟨rfl, rfl⟩

/-! ## Single excursions and large excesses -/

theorem vector_loop_stores_loop (W n c p : Nat) (log : List (List Nat)) :
    forLoop
        (fun _ (s : Nat × List (List Nat)) => (s.1 + W, s.2 ++ [vstore_offsets W s.1]))
        c n (p, log) =
      (p + W * n, log ++ (List.range n).map (fun k => vstore_offsets W (p + W * k))) := by
  induction n generalizing c p log with
  | zero => simp [forLoop]
  | succ n ih =>
    rw [forLoop, ih]
    refine Prod.ext (by simp only; rw [Nat.mul_succ]; omega) ?_
    simp only [List.range_succ_eq_map, List.map_cons, List.map_map, List.append_assoc,
      List.singleton_append, Nat.mul_zero, Nat.add_zero]
    congr 2
    apply List.map_congr_left
    intro k _
    simp only [Function.comp_apply, Nat.mul_succ]
    congr 1
    omega

theorem vector_loop_stores_eq (W n : Nat) :
    vector_loop_stores W n = (List.range n).map (fun k => vstore_offsets W (W * k)) := by
  unfold vector_loop_stores
  simp only
  rw [vector_loop_stores_loop]
  simp

theorem flatten_vstore_offsets (W n : Nat) :
    ((List.range n).map (fun k => vstore_offsets W (W * k))).flatten = List.range (W * n) := by
  induction n with
  | zero => simp
  | succ n ih =>
    rw [List.range_succ, List.map_append, List.flatten_append, ih, Nat.mul_succ,
      List.range_add]
    simp [vstore_offsets]

theorem tail_loop_stores_loop (n c : Nat) (log : List Nat) :
    forLoop (fun counter l => l ++ [counter]) c n log = log ++ List.range' c n := by
  induction n generalizing c log with
  | zero => simp [forLoop]
  | succ n ih =>
    rw [forLoop, ih, List.range'_succ]
    simp

theorem tail_loop_stores_eq (first num_points : Nat) :
    tail_loop_stores first num_points = List.range' first (num_points - first) := by
  unfold tail_loop_stores
  rw [tail_loop_stores_loop]
  simp

theorem vector_loop_frame {W : Nat} (inp : Buffer) (blk : Vec W → Vec W) (n c pi po : Nat)
    (out : Buffer) (j : Nat) (hj : j < po ∨ po + W * n ≤ j) :
    (forLoop
        (fun _ (s : Nat × Nat × Buffer) =>
          (s.1 + W, s.2.1 + W, vstore s.2.2 s.2.1 (blk (vload inp s.1))))
        c n (pi, po, out)).2.2 j = out j := by
  induction n generalizing c pi po out with
  | zero => rfl
  | succ n ih =>
    have hmul : W * (n + 1) = W * n + W := Nat.mul_succ W n
    show (forLoop _ (c + 1) n (pi + W, po + W, vstore out po (blk (vload inp pi)))).2.2 j =
      out j
    rw [ih _ _ _ _ (by omega)]
    simp only [vstore]
    rw [dif_neg (by omega)]

theorem work_partition_of_width (W num_points : Nat) :
    (vector_loop_stores W (num_points / W)).length = num_points / W ∧
    (∀ step, step ∈ vector_loop_stores W (num_points / W) → step.length = W) ∧
    (vector_loop_stores W (num_points / W)).flatten =
      List.range (num_points - num_points % W) ∧
    tail_loop_stores (num_points / W * W) num_points =
      List.range' (num_points - num_points % W) (num_points % W) ∧
    (vector_loop_stores W (num_points / W)).flatten ++
        tail_loop_stores (num_points / W * W) num_points =
      List.range num_points := by
  have h1 : W * (num_points / W) = num_points - num_points % W := by
    have := Nat.div_add_mod num_points W
    omega
  have h2 : num_points / W * W = num_points - num_points % W := by
    rw [Nat.mul_comm, h1]
  have h3 : num_points - (num_points - num_points % W) = num_points % W := by
    have := Nat.mod_le num_points W
    omega
  have hflat : (vector_loop_stores W (num_points / W)).flatten =
      List.range (num_points - num_points % W) := by
    rw [vector_loop_stores_eq, flatten_vstore_offsets, h1]
  have htail : tail_loop_stores (num_points / W * W) num_points =
      List.range' (num_points - num_points % W) (num_points % W) := by
    rw [tail_loop_stores_eq, h2, h3]
  refine ⟨by rw [vector_loop_stores_eq]; simp, ?_, hflat, htail, ?_⟩
  · intro step hstep
    rw [vector_loop_stores_eq] at hstep
    obtain ⟨k, _, rfl⟩ := List.mem_map.mp hstep
    simp [vstore_offsets]
  · rw [hflat, htail, List.range_eq_range', List.range_eq_range']
    have hle := Nat.mod_le num_points W
    have h := List.range'_append_1 0 (num_points - num_points % W) (num_points % W)
    rw [Nat.zero_add] at h
    rw [h]
    congr 1
    omega

theorem vector_kernel_frame {W : Nat} (m : IntModel) (blk : Vec W → Vec W)
    (outputVector inputVector : Buffer) (lower_bound upper_bound dist : ℚ)
    (num_points j : Nat) (hj : num_points ≤ j) :
    tail_loop m
        (forLoop
          (fun _ (s : Nat × Nat × Buffer) =>
            (s.1 + W, s.2.1 + W, vstore s.2.2 s.2.1 (blk (vload inputVector s.1))))
          0 (num_points / W) (0, 0, outputVector)).2.2
        inputVector lower_bound upper_bound dist (num_points / W * W) num_points j =
      outputVector j := by
  have hle : W * (num_points / W) ≤ num_points := Nat.mul_div_le num_points W
  rw [tail_loop_apply, if_neg (by omega)]
  exact vector_loop_frame inputVector blk (num_points / W) 0 0 0 outputVector j
    (Or.inr (by omega))

theorem vector_loop_written {W : Nat} (inp : Buffer) (blk : Vec W → Vec W) (n c pi po : Nat)
    (out out2 : Buffer) (j : Nat) (hj : po ≤ j ∧ j < po + W * n) :
    (forLoop
        (fun _ (s : Nat × Nat × Buffer) =>
          (s.1 + W, s.2.1 + W, vstore s.2.2 s.2.1 (blk (vload inp s.1))))
        c n (pi, po, out)).2.2 j =
      (forLoop
        (fun _ (s : Nat × Nat × Buffer) =>
          (s.1 + W, s.2.1 + W, vstore s.2.2 s.2.1 (blk (vload inp s.1))))
        c n (pi, po, out2)).2.2 j := by
  induction n generalizing c pi po out out2 with
  | zero => omega
  | succ n ih =>
    have hmul : W * (n + 1) = W * n + W := Nat.mul_succ W n
    show (forLoop _ (c + 1) n (pi + W, po + W, vstore out po (blk (vload inp pi)))).2.2 j =
      (forLoop _ (c + 1) n (pi + W, po + W, vstore out2 po (blk (vload inp pi)))).2.2 j
    by_cases h : po + W ≤ j
    · exact ih _ _ _ _ _ ⟨h, by omega⟩
    · rw [vector_loop_frame inp blk n (c + 1) (pi + W) (po + W) _ j (Or.inl (by omega)),
        vector_loop_frame inp blk n (c + 1) (pi + W) (po + W) _ j (Or.inl (by omega))]
      simp only [vstore]
      rw [dif_pos ⟨hj.1, by omega⟩, dif_pos ⟨hj.1, by omega⟩]

theorem vector_kernel_written {W : Nat} (m : IntModel) (blk : Vec W → Vec W)
    (outputVector outputVector2 inputVector : Buffer) (lower_bound upper_bound dist : ℚ)
    (num_points j : Nat) (hj : j < num_points) :
    tail_loop m
        (forLoop
          (fun _ (s : Nat × Nat × Buffer) =>
            (s.1 + W, s.2.1 + W, vstore s.2.2 s.2.1 (blk (vload inputVector s.1))))
          0 (num_points / W) (0, 0, outputVector)).2.2
        inputVector lower_bound upper_bound dist (num_points / W * W) num_points j =
      tail_loop m
        (forLoop
          (fun _ (s : Nat × Nat × Buffer) =>
            (s.1 + W, s.2.1 + W, vstore s.2.2 s.2.1 (blk (vload inputVector s.1))))
          0 (num_points / W) (0, 0, outputVector2)).2.2
        inputVector lower_bound upper_bound dist (num_points / W * W) num_points j := by
  have hcomm : num_points / W * W = W * (num_points / W) := Nat.mul_comm _ _
  rw [tail_loop_apply, tail_loop_apply]
  by_cases h : num_points / W * W ≤ j ∧ j < num_points
  · rw [if_pos h, if_pos h]
  · rw [if_neg h, if_neg h]
    exact vector_loop_written inputVector blk (num_points / W) 0 0 0 outputVector
      outputVector2 j ⟨Nat.zero_le j, by omega⟩

theorem u_avx_frame (m : IntModel) (bits_or : ℚ → ℚ → ℚ) (is_bigger0 : Mask 8)
    (outputVector inputVector : Buffer) (lower_bound upper_bound : ℚ) (num_points j : Nat)
    (hj : num_points ≤ j) :
    volk_32f_s32f_s32f_mod_range_32f_u_avx m bits_or is_bigger0 outputVector inputVector
        lower_bound upper_bound num_points j = outputVector j :=
  vector_kernel_frame (W := 8) m
    (fun x => (u_avx_iteration m bits_or is_bigger0 (_mm256_set1_ps lower_bound)
      (_mm256_set1_ps upper_bound)
      (_mm256_sub_ps (_mm256_set1_ps upper_bound) (_mm256_set1_ps lower_bound)) x).output)
    outputVector inputVector lower_bound upper_bound (upper_bound - lower_bound) num_points j hj

theorem u_sse2_frame (m : IntModel) (bits_or : ℚ → ℚ → ℚ)
    (outputVector inputVector : Buffer) (lower_bound upper_bound : ℚ) (num_points j : Nat)
    (hj : num_points ≤ j) :
    volk_32f_s32f_s32f_mod_range_32f_u_sse2 m bits_or outputVector inputVector
        lower_bound upper_bound num_points j = outputVector j :=
  vector_kernel_frame (W := 4) m
    (fun x => (u_sse2_iteration m bits_or (_mm_set_ps1 lower_bound) (_mm_set_ps1 upper_bound)
      (_mm_sub_ps (_mm_set_ps1 upper_bound) (_mm_set_ps1 lower_bound)) x).output)
    outputVector inputVector lower_bound upper_bound (upper_bound - lower_bound) num_points j hj

theorem u_sse_frame (m : IntModel) (bits_or : ℚ → ℚ → ℚ)
    (outputVector inputVector : Buffer) (lower_bound upper_bound : ℚ) (num_points j : Nat)
    (hj : num_points ≤ j) :
    volk_32f_s32f_s32f_mod_range_32f_u_sse m bits_or outputVector inputVector
        lower_bound upper_bound num_points j = outputVector j :=
  vector_kernel_frame (W := 4) m
    (fun x => (u_sse_iteration m bits_or (_mm_set_ps1 lower_bound) (_mm_set_ps1 upper_bound)
      (_mm_sub_ps (_mm_set_ps1 upper_bound) (_mm_set_ps1 lower_bound)) x).output)
    outputVector inputVector lower_bound upper_bound (upper_bound - lower_bound) num_points j hj

theorem u_avx_written (m : IntModel) (bits_or : ℚ → ℚ → ℚ) (is_bigger0 : Mask 8)
    (outputVector outputVector2 inputVector : Buffer) (lower_bound upper_bound : ℚ)
    (num_points j : Nat) (hj : j < num_points) :
    volk_32f_s32f_s32f_mod_range_32f_u_avx m bits_or is_bigger0 outputVector inputVector
        lower_bound upper_bound num_points j =
      volk_32f_s32f_s32f_mod_range_32f_u_avx m bits_or is_bigger0 outputVector2 inputVector
        lower_bound upper_bound num_points j :=
  vector_kernel_written (W := 8) m
    (fun x => (u_avx_iteration m bits_or is_bigger0 (_mm256_set1_ps lower_bound)
      (_mm256_set1_ps upper_bound)
      (_mm256_sub_ps (_mm256_set1_ps upper_bound) (_mm256_set1_ps lower_bound)) x).output)
    outputVector outputVector2 inputVector lower_bound upper_bound
    (upper_bound - lower_bound) num_points j hj

theorem u_sse2_written (m : IntModel) (bits_or : ℚ → ℚ → ℚ)
    (outputVector outputVector2 inputVector : Buffer) (lower_bound upper_bound : ℚ)
    (num_points j : Nat) (hj : j < num_points) :
    volk_32f_s32f_s32f_mod_range_32f_u_sse2 m bits_or outputVector inputVector
        lower_bound upper_bound num_points j =
      volk_32f_s32f_s32f_mod_range_32f_u_sse2 m bits_or outputVector2 inputVector
        lower_bound upper_bound num_points j :=
  vector_kernel_written (W := 4) m
    (fun x => (u_sse2_iteration m bits_or (_mm_set_ps1 lower_bound) (_mm_set_ps1 upper_bound)
      (_mm_sub_ps (_mm_set_ps1 upper_bound) (_mm_set_ps1 lower_bound)) x).output)
    outputVector outputVector2 inputVector lower_bound upper_bound
    (upper_bound - lower_bound) num_points j hj

theorem u_sse_written (m : IntModel) (bits_or : ℚ → ℚ → ℚ)
    (outputVector outputVector2 inputVector : Buffer) (lower_bound upper_bound : ℚ)
    (num_points j : Nat) (hj : j < num_points) :
    volk_32f_s32f_s32f_mod_range_32f_u_sse m bits_or outputVector inputVector
        lower_bound upper_bound num_points j =
      volk_32f_s32f_s32f_mod_range_32f_u_sse m bits_or outputVector2 inputVector
        lower_bound upper_bound num_points j :=
  vector_kernel_written (W := 4) m
    (fun x => (u_sse_iteration m bits_or (_mm_set_ps1 lower_bound) (_mm_set_ps1 upper_bound)
      (_mm_sub_ps (_mm_set_ps1 upper_bound) (_mm_set_ps1 lower_bound)) x).output)
    outputVector outputVector2 inputVector lower_bound upper_bound
    (upper_bound - lower_bound) num_points j hj

/-- C13. For every `num_points`, the vector loop of the AVX kernel (`W = 8`) and the
one of the SSE2 and SSE kernels (`W = 4`) run `num_points / W` iterations, each
storing `W` lanes, and store to exactly the offsets
`0 .. num_points - num_points % W - 1`, in order; the tail loop stores to exactly
the offsets `num_points - num_points % W .. num_points - 1`; together the stores
are the offsets `0 .. num_points - 1`, each once, and no offset from `num_points`
on is stored to. On the buffers: the kernels leave the output buffer from
`num_points` on as it was, and below `num_points` what they leave does not depend
on what the output buffer held. -/
theorem work_partition (m : IntModel) (bits_or : ℚ → ℚ → ℚ) (is_bigger0 : Mask 8)
    (outputVector inputVector : Buffer) (lower_bound upper_bound : ℚ) (num_points : Nat) :
    ((vector_loop_stores 8 (eight_points num_points)).length = num_points / 8 ∧
      (∀ step, step ∈ vector_loop_stores 8 (eight_points num_points) → step.length = 8) ∧
      (vector_loop_stores 8 (eight_points num_points)).flatten =
        List.range (num_points - num_points % 8) ∧
      tail_loop_stores (eight_points num_points * 8) num_points =
        List.range' (num_points - num_points % 8) (num_points % 8) ∧
      (vector_loop_stores 8 (eight_points num_points)).flatten ++
          tail_loop_stores (eight_points num_points * 8) num_points =
        List.range num_points ∧
      (∀ j, num_points ≤ j →
        volk_32f_s32f_s32f_mod_range_32f_u_avx m bits_or is_bigger0 outputVector inputVector
            lower_bound upper_bound num_points j = outputVector j) ∧
      (∀ (outputVector2 : Buffer) j, j < num_points →
        volk_32f_s32f_s32f_mod_range_32f_u_avx m bits_or is_bigger0 outputVector inputVector
            lower_bound upper_bound num_points j =
          volk_32f_s32f_s32f_mod_range_32f_u_avx m bits_or is_bigger0 outputVector2
            inputVector lower_bound upper_bound num_points j)) ∧
    ((vector_loop_stores 4 (quarter_points num_points)).length = num_points / 4 ∧
      (∀ step, step ∈ vector_loop_stores 4 (quarter_points num_points) → step.length = 4) ∧
      (vector_loop_stores 4 (quarter_points num_points)).flatten =
        List.range (num_points - num_points % 4) ∧
      tail_loop_stores (quarter_points num_points * 4) num_points =
        List.range' (num_points - num_points % 4) (num_points % 4) ∧
      (vector_loop_stores 4 (quarter_points num_points)).flatten ++
          tail_loop_stores (quarter_points num_points * 4) num_points =
        List.range num_points ∧
      (∀ j, num_points ≤ j →
        volk_32f_s32f_s32f_mod_range_32f_u_sse2 m bits_or outputVector inputVector
            lower_bound upper_bound num_points j = outputVector j) ∧
      (∀ j, num_points ≤ j →
        volk_32f_s32f_s32f_mod_range_32f_u_sse m bits_or outputVector inputVector
            lower_bound upper_bound num_points j = outputVector j) ∧
      (∀ (outputVector2 : Buffer) j, j < num_points →
        volk_32f_s32f_s32f_mod_range_32f_u_sse2 m bits_or outputVector inputVector
            lower_bound upper_bound num_points j =
          volk_32f_s32f_s32f_mod_range_32f_u_sse2 m bits_or outputVector2 inputVector
            lower_bound upper_bound num_points j) ∧
      (∀ (outputVector2 : Buffer) j, j < num_points →
        volk_32f_s32f_s32f_mod_range_32f_u_sse m bits_or outputVector inputVector
            lower_bound upper_bound num_points j =
          volk_32f_s32f_s32f_mod_range_32f_u_sse m bits_or outputVector2 inputVector
            lower_bound upper_bound num_points j)) := by
  obtain ⟨a1, a2, a3, a4, a5⟩ := work_partition_of_width 8 num_points
  obtain ⟨b1, b2, b3, b4, b5⟩ := work_partition_of_width 4 num_points
  exact ⟨⟨a1, a2, a3, a4, a5,
      fun j hj => u_avx_frame m bits_or is_bigger0 outputVector inputVector lower_bound
        upper_bound num_points j hj,
      fun o2 j hj => u_avx_written m bits_or is_bigger0 outputVector o2 inputVector
        lower_bound upper_bound num_points j hj⟩,
    b1, b2, b3, b4, b5,
    fun j hj => u_sse2_frame m bits_or outputVector inputVector lower_bound upper_bound
      num_points j hj,
    fun j hj => u_sse_frame m bits_or outputVector inputVector lower_bound upper_bound
      num_points j hj,
    fun o2 j hj => u_sse2_written m bits_or outputVector o2 inputVector lower_bound
      upper_bound num_points j hj,
    fun o2 j hj => u_sse_written m bits_or outputVector o2 inputVector lower_bound
      upper_bound num_points j hj⟩

/-- Witness of `work_partition`: on 13 samples the AVX kernel stores to the offsets
`0 .. 7` in one iteration and to `8 .. 12` in the tail loop; the SSE2 and SSE
kernels store to `0 .. 11` in three iterations and to `12` in the tail loop. -/
theorem work_partition_witness :
    (vector_loop_stores 8 (eight_points 13)).flatten = List.range (13 - 13 % 8) ∧
    tail_loop_stores (eight_points 13 * 8) 13 = List.range' (13 - 13 % 8) (13 % 8) ∧
    vector_loop_stores 8 (eight_points 13) = [[0, 1, 2, 3, 4, 5, 6, 7]] ∧
    tail_loop_stores (eight_points 13 * 8) 13 = [8, 9, 10, 11, 12] ∧
    vector_loop_stores 4 (quarter_points 13) =
      [[0, 1, 2, 3], [4, 5, 6, 7], [8, 9, 10, 11]] ∧
    tail_loop_stores (quarter_points 13 * 4) 13 = [12] :=
  ⟨(work_partition IntModel.int32 (fun a _ => a) (fun _ => false) (fun _ => 0) (fun _ => 0)
      0 1 13).1.2.2.1,
    (work_partition IntModel.int32 (fun a _ => a) (fun _ => false) (fun _ => 0) (fun _ => 0)
      0 1 13).1.2.2.2.1,
    by decide, by decide, by decide, by decide⟩

/-! ## Masks and lane truncation -/

/-- C14, the code against the claim. In the vector loop of the AVX kernel the mask
`is_smaller` used for `excess` and `adj` is, in every lane, `input > upper` (the
second assignment), and `is_bigger` is what the unassigned register holds. With
bounds `(0, 1)`: a lane holding `-1/2`, below `lower_bound`, has `is_smaller`
false; a lane holding `3/2`, above `upper_bound`, has `is_smaller` true, and
`is_bigger` false when the unassigned register is zero. -/
theorem u_avx_masks (m : IntModel) (bits_or : ℚ → ℚ → ℚ) (is_bigger0 : Mask 8)
    (lower upper distance input : Vec 8) (i : Fin 8) :
    ((u_avx_iteration m bits_or is_bigger0 lower upper distance input).is_smaller i =
        decide (input i > upper i) ∧
      (u_avx_iteration m bits_or is_bigger0 lower upper distance input).is_bigger i =
        is_bigger0 i) ∧
    ((-1 / 2 : ℚ) < 0 ∧
      (u_avx_iteration m bits_or is_bigger0 (_mm256_set1_ps 0) (_mm256_set1_ps 1)
        (_mm256_sub_ps (_mm256_set1_ps 1) (_mm256_set1_ps 0))
        (_mm256_set1_ps (-1 / 2))).is_smaller i = false) ∧
    (¬ ((3 / 2 : ℚ) < 0) ∧ (3 / 2 : ℚ) > 1 ∧
      (u_avx_iteration m bits_or is_bigger0 (_mm256_set1_ps 0) (_mm256_set1_ps 1)
        (_mm256_sub_ps (_mm256_set1_ps 1) (_mm256_set1_ps 0))
        (_mm256_set1_ps (3 / 2))).is_smaller i = true ∧
      (u_avx_iteration m bits_or (fun _ => false) (_mm256_set1_ps 0) (_mm256_set1_ps 1)
        (_mm256_sub_ps (_mm256_set1_ps 1) (_mm256_set1_ps 0))
        (_mm256_set1_ps (3 / 2))).is_bigger i = false) := by
  refine ⟨⟨rfl, rfl⟩, ⟨by norm_num, ?_⟩, by norm_num, by norm_num, ?_, rfl⟩
  · simp only [u_avx_iteration, _mm256_cmp_ps, vcmpgt, _mm256_set1_ps, vset1]
    norm_num
  · simp only [u_avx_iteration, _mm256_cmp_ps, vcmpgt, _mm256_set1_ps, vset1]
    norm_num

/-- C15. For every register of four quotients, in exact arithmetic as on the
machine, the sequence of the SSE kernels (`_mm_movehl_ps` of the high pair onto
zero, `_mm_cvttps_pi32` of the low and of the high pair, `_mm_cvtpi32x2_ps` of
the low then the high pair) gives in every lane what the sequence of the SSE2
kernels (`_mm_cvttps_epi32` then `_mm_cvtepi32_ps`) gives, lanes in the same
order; so the two iterations hold the same count of widths after "plus 1". -/
theorem sse_truncation_eq_sse2 (m : IntModel) (bits_or : ℚ → ℚ → ℚ)
    (quotient lower upper distance input : Vec 4) :
    _mm_cvtpi32x2_ps (_mm_cvttps_pi32 m quotient)
        (_mm_cvttps_pi32 m (_mm_movehl_ps _mm_setzero_ps quotient)) =
      _mm_cvtepi32_ps (_mm_cvttps_epi32 m quotient) ∧
    (∀ i : Fin 4,
      _mm_cvtpi32x2_ps (_mm_cvttps_pi32 m quotient)
          (_mm_cvttps_pi32 m (_mm_movehl_ps _mm_setzero_ps quotient)) i =
        cvt_f32 (cvtt m (quotient i))) ∧
    (u_sse_iteration m bits_or lower upper distance input).widths =
      (u_sse2_iteration m bits_or lower upper distance input).widths ∧
    (a_sse_iteration m bits_or lower upper distance input).widths =
      (a_sse2_iteration m bits_or lower upper distance input).widths := by
  have h : ∀ q : Vec 4, _mm_cvtpi32x2_ps (_mm_cvttps_pi32 m q)
      (_mm_cvttps_pi32 m (_mm_movehl_ps _mm_setzero_ps q)) =
      _mm_cvtepi32_ps (_mm_cvttps_epi32 m q) := by
    intro q
    funext i
    fin_cases i <;>
    simp [_mm_cvtpi32x2_ps, _mm_cvttps_pi32, _mm_movehl_ps, _mm_cvtepi32_ps,
      _mm_cvttps_epi32, vcvt, vcvtt]
  refine ⟨h quotient, fun i => ?_, ?_, ?_⟩
  · rw [h quotient]
    rfl
  · simp only [u_sse_iteration, u_sse2_iteration, h]
  · simp only [a_sse_iteration, a_sse2_iteration, h]

theorem masked_lane_facts (bits_or : ℚ → ℚ → ℚ) {lower_bound upper_bound v d : ℚ}
    (hb : lower_bound < upper_bound) (it : Iteration 4) (i : Fin 4)
    (hs : it.is_smaller i = decide (v < lower_bound))
    (hg : it.is_bigger i = decide (v > upper_bound))
    (he : it.excess i =
      lane_or bits_or (if it.is_bigger i then v - upper_bound else 0)
        (if it.is_smaller i then lower_bound - v else 0))
    (ha : it.adj i =
      lane_or bits_or (if it.is_bigger i then -1 else 0) (if it.is_smaller i then 1 else 0))
    (ho : it.output i = v + it.widths i * it.adj i * d) :
    ¬ (it.is_smaller i = true ∧ it.is_bigger i = true) ∧
    it.excess i =
      (if it.is_smaller i then lower_bound - v
        else if it.is_bigger i then v - upper_bound else 0) ∧
    it.adj i = (if it.is_smaller i then 1 else if it.is_bigger i then -1 else 0) ∧
    (lower_bound ≤ v → v ≤ upper_bound → it.adj i = 0 ∧ it.output i = v) := by
  rw [ho, he, ha, hs, hg]
  by_cases h1 : v < lower_bound
  · have h2 : ¬ v > upper_bound := not_lt.mpr (by linarith)
    simp only [h1, h2, decide_True, decide_False, lane_or, if_true]
    refine ⟨by simp, by simp, by simp, fun h => absurd h1 (not_lt.mpr h)⟩
  · by_cases h2 : v > upper_bound
    · have hne : v - upper_bound ≠ 0 := ne_of_gt (by linarith)
      simp only [h1, h2, decide_True, decide_False, lane_or, if_true]
      refine ⟨by simp, by simp [hne], by simp, fun _ h => absurd h2 (not_lt.mpr h)⟩
    · simp only [h1, h2, decide_True, decide_False, lane_or, if_true]
      refine ⟨by simp, by simp, by simp, fun _ _ => by simp⟩

/-- C17. In the vector loop of the SSE2 kernel and in the one of the SSE kernel,
for bounds with `upper_bound > lower_bound` and every lane: `is_smaller` is
`input < lower` and `is_bigger` is `input > upper`, never both true; `excess` is
`lower - input` where `is_smaller`, `input - upper` where `is_bigger` and `0`
otherwise; `adj` is `+1` where `is_smaller`, `-1` where `is_bigger` and `0`
otherwise; a lane within the bounds has `adj = 0` and `output = input`. -/
theorem sse_masks_exclusive (m : IntModel) (bits_or : ℚ → ℚ → ℚ)
    (lower_bound upper_bound : ℚ) (input : Vec 4) (i : Fin 4)
    (hb : lower_bound < upper_bound) :
    (((u_sse2_iteration m bits_or (_mm_set_ps1 lower_bound) (_mm_set_ps1 upper_bound)
          (_mm_sub_ps (_mm_set_ps1 upper_bound) (_mm_set_ps1 lower_bound)) input).is_smaller i =
        decide (input i < lower_bound) ∧
      (u_sse2_iteration m bits_or (_mm_set_ps1 lower_bound) (_mm_set_ps1 upper_bound)
          (_mm_sub_ps (_mm_set_ps1 upper_bound) (_mm_set_ps1 lower_bound)) input).is_bigger i =
        decide (input i > upper_bound)) ∧
      ¬ ((u_sse2_iteration m bits_or (_mm_set_ps1 lower_bound) (_mm_set_ps1 upper_bound)
          (_mm_sub_ps (_mm_set_ps1 upper_bound) (_mm_set_ps1 lower_bound)) input).is_smaller i =
            true ∧
        (u_sse2_iteration m bits_or (_mm_set_ps1 lower_bound) (_mm_set_ps1 upper_bound)
          (_mm_sub_ps (_mm_set_ps1 upper_bound) (_mm_set_ps1 lower_bound)) input).is_bigger i =
            true) ∧
      (u_sse2_iteration m bits_or (_mm_set_ps1 lower_bound) (_mm_set_ps1 upper_bound)
          (_mm_sub_ps (_mm_set_ps1 upper_bound) (_mm_set_ps1 lower_bound)) input).excess i =
        (if input i < lower_bound then lower_bound - input i
          else if input i > upper_bound then input i - upper_bound else 0) ∧
      (u_sse2_iteration m bits_or (_mm_set_ps1 lower_bound) (_mm_set_ps1 upper_bound)
          (_mm_sub_ps (_mm_set_ps1 upper_bound) (_mm_set_ps1 lower_bound)) input).adj i =
        (if input i < lower_bound then 1 else if input i > upper_bound then -1 else 0) ∧
      (lower_bound ≤ input i → input i ≤ upper_bound →
        (u_sse2_iteration m bits_or (_mm_set_ps1 lower_bound) (_mm_set_ps1 upper_bound)
          (_mm_sub_ps (_mm_set_ps1 upper_bound) (_mm_set_ps1 lower_bound)) input).adj i = 0 ∧
        (u_sse2_iteration m bits_or (_mm_set_ps1 lower_bound) (_mm_set_ps1 upper_bound)
          (_mm_sub_ps (_mm_set_ps1 upper_bound) (_mm_set_ps1 lower_bound)) input).output i =
            input i)) ∧
    (((u_sse_iteration m bits_or (_mm_set_ps1 lower_bound) (_mm_set_ps1 upper_bound)
          (_mm_sub_ps (_mm_set_ps1 upper_bound) (_mm_set_ps1 lower_bound)) input).is_smaller i =
        decide (input i < lower_bound) ∧
      (u_sse_iteration m bits_or (_mm_set_ps1 lower_bound) (_mm_set_ps1 upper_bound)
          (_mm_sub_ps (_mm_set_ps1 upper_bound) (_mm_set_ps1 lower_bound)) input).is_bigger i =
        decide (input i > upper_bound)) ∧
      ¬ ((u_sse_iteration m bits_or (_mm_set_ps1 lower_bound) (_mm_set_ps1 upper_bound)
          (_mm_sub_ps (_mm_set_ps1 upper_bound) (_mm_set_ps1 lower_bound)) input).is_smaller i =
            true ∧
        (u_sse_iteration m bits_or (_mm_set_ps1 lower_bound) (_mm_set_ps1 upper_bound)
          (_mm_sub_ps (_mm_set_ps1 upper_bound) (_mm_set_ps1 lower_bound)) input).is_bigger i =
            true) ∧
      (u_sse_iteration m bits_or (_mm_set_ps1 lower_bound) (_mm_set_ps1 upper_bound)
          (_mm_sub_ps (_mm_set_ps1 upper_bound) (_mm_set_ps1 lower_bound)) input).excess i =
        (if input i < lower_bound then lower_bound - input i
          else if input i > upper_bound then input i - upper_bound else 0) ∧
      (u_sse_iteration m bits_or (_mm_set_ps1 lower_bound) (_mm_set_ps1 upper_bound)
          (_mm_sub_ps (_mm_set_ps1 upper_bound) (_mm_set_ps1 lower_bound)) input).adj i =
        (if input i < lower_bound then 1 else if input i > upper_bound then -1 else 0) ∧
      (lower_bound ≤ input i → input i ≤ upper_bound →
        (u_sse_iteration m bits_or (_mm_set_ps1 lower_bound) (_mm_set_ps1 upper_bound)
          (_mm_sub_ps (_mm_set_ps1 upper_bound) (_mm_set_ps1 lower_bound)) input).adj i = 0 ∧
        (u_sse_iteration m bits_or (_mm_set_ps1 lower_bound) (_mm_set_ps1 upper_bound)
          (_mm_sub_ps (_mm_set_ps1 upper_bound) (_mm_set_ps1 lower_bound)) input).output i =
            input i)) := by
  have hs2 : (u_sse2_iteration m bits_or (_mm_set_ps1 lower_bound) (_mm_set_ps1 upper_bound)
      (_mm_sub_ps (_mm_set_ps1 upper_bound) (_mm_set_ps1 lower_bound)) input).is_smaller i =
      decide (input i < lower_bound) := rfl
  have hg2 : (u_sse2_iteration m bits_or (_mm_set_ps1 lower_bound) (_mm_set_ps1 upper_bound)
      (_mm_sub_ps (_mm_set_ps1 upper_bound) (_mm_set_ps1 lower_bound)) input).is_bigger i =
      decide (input i > upper_bound) := rfl
  have hs1 : (u_sse_iteration m bits_or (_mm_set_ps1 lower_bound) (_mm_set_ps1 upper_bound)
      (_mm_sub_ps (_mm_set_ps1 upper_bound) (_mm_set_ps1 lower_bound)) input).is_smaller i =
      decide (input i < lower_bound) := rfl
  have hg1 : (u_sse_iteration m bits_or (_mm_set_ps1 lower_bound) (_mm_set_ps1 upper_bound)
      (_mm_sub_ps (_mm_set_ps1 upper_bound) (_mm_set_ps1 lower_bound)) input).is_bigger i =
      decide (input i > upper_bound) := rfl
  have f2 := masked_lane_facts bits_or hb
    (u_sse2_iteration m bits_or (_mm_set_ps1 lower_bound) (_mm_set_ps1 upper_bound)
      (_mm_sub_ps (_mm_set_ps1 upper_bound) (_mm_set_ps1 lower_bound)) input) i hs2 hg2 rfl rfl
    rfl
  have f1 := masked_lane_facts bits_or hb
    (u_sse_iteration m bits_or (_mm_set_ps1 lower_bound) (_mm_set_ps1 upper_bound)
      (_mm_sub_ps (_mm_set_ps1 upper_bound) (_mm_set_ps1 lower_bound)) input) i hs1 hg1 rfl rfl
    rfl
  rw [hs2, hg2] at f2
  rw [hs1, hg1] at f1
  simp only [decide_eq_true_eq] at f1 f2
  exact ⟨⟨⟨hs2, hg2⟩, by rw [hs2, hg2]; simpa using f2.1, f2.2.1, f2.2.2.1, f2.2.2.2⟩,
    ⟨hs1, hg1⟩, by rw [hs1, hg1]; simpa using f1.1, f1.2.1, f1.2.2.1, f1.2.2.2⟩

/-! ## Truncation and direction of the wrap -/

theorem cvtt_i32_of_lt_two_pow {q : ℚ} (hq : 0 ≤ q) (hlt : q < 2147483648) :
    cvtt_i32 q = ⌊q⌋ := by
  have h0 : 0 ≤ ⌊q⌋ := Int.floor_nonneg.mpr hq
  have h1 : ⌊q⌋ < 2147483648 := by
    rw [Int.floor_lt]
    exact_mod_cast hlt
  unfold cvtt_i32
  rw [trunc_of_nonneg hq, if_pos]
  simp only [INT_MIN, INT_MAX]
  omega

/-- C16, as amended. For bounds with `upper_bound > lower_bound` and every
out-of-range value, the quotient `excess / distance` formed in either branch of
the scalar algorithm is non-negative, so its truncation toward zero is
`floor(excess / distance)`; the conversion `(int)(excess / distance)` gives that
integer for every quotient in exact arithmetic, and on the machine for every
quotient below `2^31`, the ones a signed 32 bit `int` holds. -/
theorem truncation_is_floor (lower_bound upper_bound val : ℚ)
    (hb : lower_bound < upper_bound) :
    (val < lower_bound →
      0 ≤ (lower_bound - val) / (upper_bound - lower_bound) ∧
      trunc ((lower_bound - val) / (upper_bound - lower_bound)) =
        ⌊(lower_bound - val) / (upper_bound - lower_bound)⌋ ∧
      cvtt IntModel.exact ((lower_bound - val) / (upper_bound - lower_bound)) =
        ⌊(lower_bound - val) / (upper_bound - lower_bound)⌋ ∧
      ((lower_bound - val) / (upper_bound - lower_bound) < 2147483648 →
        cvtt IntModel.int32 ((lower_bound - val) / (upper_bound - lower_bound)) =
          ⌊(lower_bound - val) / (upper_bound - lower_bound)⌋)) ∧
    (val > upper_bound →
      0 ≤ (val - upper_bound) / (upper_bound - lower_bound) ∧
      trunc ((val - upper_bound) / (upper_bound - lower_bound)) =
        ⌊(val - upper_bound) / (upper_bound - lower_bound)⌋ ∧
      cvtt IntModel.exact ((val - upper_bound) / (upper_bound - lower_bound)) =
        ⌊(val - upper_bound) / (upper_bound - lower_bound)⌋ ∧
      ((val - upper_bound) / (upper_bound - lower_bound) < 2147483648 →
        cvtt IntModel.int32 ((val - upper_bound) / (upper_bound - lower_bound)) =
          ⌊(val - upper_bound) / (upper_bound - lower_bound)⌋)) := by
  have hd : 0 < upper_bound - lower_bound := sub_pos.mpr hb
  constructor
  · intro h
    have hq : 0 ≤ (lower_bound - val) / (upper_bound - lower_bound) :=
      div_nonneg (by linarith) hd.le
    exact ⟨hq, trunc_of_nonneg hq, trunc_of_nonneg hq, fun hlt => cvtt_i32_of_lt_two_pow hq hlt⟩
  · intro h
    have hq : 0 ≤ (val - upper_bound) / (upper_bound - lower_bound) :=
      div_nonneg (by linarith) hd.le
    exact ⟨hq, trunc_of_nonneg hq, trunc_of_nonneg hq, fun hlt => cvtt_i32_of_lt_two_pow hq hlt⟩

/-- Witness of `truncation_is_floor`: with bounds `(0, 1)` the value `7/2` has the
quotient `5/2`, converted to `2` on the machine. -/
theorem truncation_is_floor_witness :
    ((0 : ℚ) < 1 ∧ (7 / 2 : ℚ) > 1 ∧ ((7 / 2 : ℚ) - 1) / (1 - 0) < 2147483648) ∧
    cvtt IntModel.int32 (((7 / 2 : ℚ) - 1) / (1 - 0)) = ⌊((7 / 2 : ℚ) - 1) / (1 - 0)⌋ ∧
    ⌊((7 / 2 : ℚ) - 1) / (1 - 0)⌋ = 2 :=
  ⟨⟨by norm_num, by norm_num, by norm_num⟩,
    ((truncation_is_floor 0 1 (7 / 2) (by norm_num)).2 (by norm_num)).2.2.2 (by norm_num),
    by norm_num⟩

/-- C16, as stated, fails on the machine: with bounds `(0, 1)` the value `-2^33`
is out of range with the non-negative quotient `2^33`, whose floor is `2^33`;
the conversion to the signed 32 bit `count` yields `0x80000000`. -/
theorem truncation_not_floor_beyond_int :
    (0 : ℚ) < 1 ∧ (-8589934592 : ℚ) < 0 ∧
    0 ≤ ((0 : ℚ) - -8589934592) / (1 - 0) ∧
    ⌊((0 : ℚ) - -8589934592) / (1 - 0)⌋ = 8589934592 ∧
    cvtt IntModel.int32 (((0 : ℚ) - -8589934592) / (1 - 0)) = -2147483648 ∧
    cvtt IntModel.int32 (((0 : ℚ) - -8589934592) / (1 - 0)) ≠
      ⌊((0 : ℚ) - -8589934592) / (1 - 0)⌋ := by
  have h1 : ⌊((0 : ℚ) - -8589934592) / (1 - 0)⌋ = 8589934592 := by norm_num
  have h2 : cvtt IntModel.int32 (((0 : ℚ) - -8589934592) / (1 - 0)) = -2147483648 := by
    norm_num [cvtt, cvtt_i32, trunc, INT_MIN, INT_MAX]
  refine ⟨by norm_num, by norm_num, by norm_num, h1, h2, ?_⟩
  rw [h1, h2]
  norm_num

/-- Witness of `sse_masks_exclusive`: with bounds `(0, 1)` and the register
`-1/2, 1/2, 3/2, 0`, the lane holding `3/2` of the SSE2 iteration has `is_bigger`
only, `excess = 1/2` and `adj = -1`. -/
theorem sse_masks_exclusive_witness :
    (0 : ℚ) < 1 ∧
    (u_sse2_iteration IntModel.int32 (fun a _ => a) (_mm_set_ps1 0) (_mm_set_ps1 1)
        (_mm_sub_ps (_mm_set_ps1 1) (_mm_set_ps1 0)) ![-1 / 2, 1 / 2, 3 / 2, 0]).excess 2 =
      1 / 2 ∧
    (u_sse2_iteration IntModel.int32 (fun a _ => a) (_mm_set_ps1 0) (_mm_set_ps1 1)
        (_mm_sub_ps (_mm_set_ps1 1) (_mm_set_ps1 0)) ![-1 / 2, 1 / 2, 3 / 2, 0]).adj 2 =
      -1 := by
  have h := (sse_masks_exclusive IntModel.int32 (fun a _ => a) 0 1 ![-1 / 2, 1 / 2, 3 / 2, 0] 2
    (by norm_num)).1
  refine ⟨by norm_num, ?_, ?_⟩
  · rw [h.2.2.1]
    norm_num
  · rw [h.2.2.2.1]
    norm_num

end Volk
